import Mathlib

/-!
Shallow embedding of the KDP PDF export engine of the devotional-generator
repository (src/ui/pdf: types.ts, margins.ts, blocks.ts, fonts.ts, engine.ts,
compliance.ts), together with theorems settling the specification claims.

Modelling conventions:
* Machine floating point numbers are modelled by exact rationals.  All the
  layout arithmetic of the source (margins, cursor positions, line heights)
  is on small decimal constants, so the rational model matches the float
  computation on every quantity the claims mention.
* Font metrics (pdf-lib widthOfTextAtSize) are an external input to the
  engine; they are modelled by an explicit parameter measure of type
  Face to String to size to width, threaded everywhere the source consults
  the embedded fonts.
* Drawing onto a pdf-lib page is modelled by an explicit list of draw
  operations; serialization of the finished document (doc.save) is modelled
  as the content-pure function saveDoc of the drawn pages, since pdf-lib is
  an external collaborator of the repository.
* The mutable engine state of renderLayout (engine.ts lines 139-147) is an
  explicit record threaded through step functions.  In addition to the
  fields of the source, the state carries a ghost observation trace
  renderLog recording each renderBlock invocation (block, index of the open
  physical page, cursor y); the trace is written exactly where the source
  calls renderBlock and is read by no definition, only by theorems.
-/

-- Rational arithmetic is sealed in Batteries; unsealing lets concrete
-- engine runs be evaluated by kernel reduction in the proofs below.
unseal Rat.add Rat.sub Rat.mul Rat.inv Rat.ofScientific

namespace DevotionalPDF

/-! ## Data model (src/ui/pdf/types.ts) -/

/-- Semantic block type tag (types.ts BlockType). -/
inductive BlockType where
  | heading
  | body_text
  | block_quote
  | footnote
  | prompt_list
  | action_list
  | divider
  | page_break
  | title
  | subtitle
  | imprint
  | toc_entry
deriving DecidableEq, Repr

/-- Page numbering regime (types.ts PageNumberStyle). -/
inductive PageNumberStyle where
  | roman
  | arabic
  | suppressed
deriving DecidableEq, Repr

/-- One content block (types.ts DocumentBlock).  The deprecated metadata
field, a free-form record never read by the engine, is omitted; the
deprecated page_number_style field is kept since it is part of the frozen
schema. -/
structure DocumentBlock where
  block_type : BlockType
  content : String
  page_number_style : Option PageNumberStyle := none
deriving DecidableEq, Repr

/-- One logical page (types.ts DocumentPage). -/
structure DocumentPage where
  blocks : List DocumentBlock
  starts_new_page : Option Bool := none
  page_number_style : Option PageNumberStyle := none
deriving DecidableEq, Repr

/-- The frozen input document (types.ts DocumentRepresentation). -/
structure DocumentRepresentation where
  title : String
  subtitle : Option String := none
  front_matter : List DocumentPage
  content_pages : List DocumentPage
  has_toc : Bool := false
  has_day7 : Bool := false
  total_estimated_pages : Option Nat := none
deriving DecidableEq, Repr

/-- Output mode flag: the source strings personal and publish-ready. -/
inductive OutputMode where
  | personal
  | publishReady
deriving DecidableEq, Repr

/-- Fatal engine errors.  The only throw site in the embedded sources is the
RangeError of margins.ts for a page count exceeding the largest bracket. -/
inductive EngineError where
  | rangeError (msg : String)
deriving DecidableEq, Repr

/-! ## Margin resolver (src/ui/pdf/margins.ts) -/

/-- Margin values in inches (margins.ts KDPMargins). -/
structure KDPMargins where
  inside : ℚ
  outside : ℚ
  top : ℚ
  bottom : ℚ
deriving DecidableEq, Repr

/-- KDP page count brackets and their minimum inside margins
(margins.ts INSIDE_MARGIN_BRACKETS), as (maxPages, inside) pairs. -/
def INSIDE_MARGIN_BRACKETS : List (Nat × ℚ) :=
  [(150, 0.375), (300, 0.500), (500, 0.625), (700, 0.750), (828, 0.875)]

def OUTSIDE_MARGIN_INCHES : ℚ := 0.375
def TOP_MARGIN_INCHES : ℚ := 0.375
def BOTTOM_MARGIN_INCHES : ℚ := 0.375

/-- Loop of calculateMargins over the bracket table (margins.ts lines 52-61);
falling off the end is the RangeError throw of lines 62-64. -/
def calculateMarginsLoop (pageCount : Nat) :
    List (Nat × ℚ) → Except EngineError KDPMargins
  | [] => .error (.rangeError
      ("Page count " ++ toString pageCount ++ " exceeds KDP maximum of 828 pages."))
  | bracket :: rest =>
      if pageCount ≤ bracket.1 then
        .ok { inside := bracket.2, outside := OUTSIDE_MARGIN_INCHES,
              top := TOP_MARGIN_INCHES, bottom := BOTTOM_MARGIN_INCHES }
      else
        calculateMarginsLoop pageCount rest

/-- margins.ts calculateMargins. -/
def calculateMargins (pageCount : Nat) : Except EngineError KDPMargins :=
  calculateMarginsLoop pageCount INSIDE_MARGIN_BRACKETS

/-- margins.ts marginsToPoints (1 inch = 72 points). -/
def marginsToPoints (margins : KDPMargins) : KDPMargins :=
  { inside := margins.inside * 72, outside := margins.outside * 72,
    top := margins.top * 72, bottom := margins.bottom * 72 }

/-- Loop of describeMarginBracket over (upper edge, label) pairs
(margins.ts lines 84-98). -/
def describeMarginBracketLoop (pageCount : Nat) :
    List (Nat × String) → Except EngineError String
  | [] => .error (.rangeError
      ("Page count " ++ toString pageCount ++ " exceeds KDP maximum."))
  | entry :: rest =>
      if pageCount ≤ entry.1 then .ok entry.2
      else describeMarginBracketLoop pageCount rest

/-- margins.ts describeMarginBracket. -/
def describeMarginBracket (pageCount : Nat) : Except EngineError String :=
  describeMarginBracketLoop pageCount
    [(150, "24–150 pages: 0.375in gutter"),
     (300, "151–300 pages: 0.500in gutter"),
     (500, "301–500 pages: 0.625in gutter"),
     (700, "501–700 pages: 0.750in gutter"),
     (828, "701–828 pages: 0.875in gutter")]

/-! ## Compliance checker (compliance.ts) -/

/-- KDP 6x9 trim size in points. -/
def TRIM_WIDTH_PT : ℚ := 432
def TRIM_HEIGHT_PT : ℚ := 648

def MIN_OUTSIDE_MARGIN_IN : ℚ := 0.250
def MIN_TOP_MARGIN_IN : ℚ := 0.250
def MIN_BOTTOM_MARGIN_IN : ℚ := 0.250

/-- KDP minimum page count for commercial publication (FR-93). -/
def KDP_MIN_PAGE_COUNT : Nat := 24

/-- compliance.ts KDPComplianceInput. -/
structure KDPComplianceInput where
  pageDimensions : List (ℚ × ℚ)
  pageCount : Nat
  insideMarginIn : ℚ
  outsideMarginIn : ℚ
  topMarginIn : ℚ
  bottomMarginIn : ℚ
  fontsEmbedded : Bool
  offerPagePresent : Bool
  outputMode : OutputMode
deriving DecidableEq, Repr

/-- compliance.ts KDPComplianceResult. -/
structure KDPComplianceResult where
  passes : Bool
  trim_size_correct : Bool
  inside_margin_correct : Bool
  outside_margin_correct : Bool
  top_margin_correct : Bool
  bottom_margin_correct : Bool
  fonts_embedded : Bool
  page_count : Nat
  page_count_warning : Bool
  offer_page_present : Bool
  violations : List String
deriving DecidableEq, Repr

/-- Trim check of compliance.ts lines 801-803: every page within 1pt of
432x648. -/
def trimSizeCorrect (input : KDPComplianceInput) : Bool :=
  input.pageDimensions.all fun wh =>
    decide (|wh.1 - TRIM_WIDTH_PT| < 1) && decide (|wh.2 - TRIM_HEIGHT_PT| < 1)

/-- Inside margin check of compliance.ts line 813. -/
def insideMarginCorrect (input : KDPComplianceInput) (required : KDPMargins) : Bool :=
  decide (input.insideMarginIn ≥ required.inside - 0.001)

/-- Outside margin check of compliance.ts line 822. -/
def outsideMarginCorrect (input : KDPComplianceInput) : Bool :=
  decide (input.outsideMarginIn ≥ MIN_OUTSIDE_MARGIN_IN - 0.001)

/-- Top margin check of compliance.ts line 831. -/
def topMarginCorrect (input : KDPComplianceInput) : Bool :=
  decide (input.topMarginIn ≥ MIN_TOP_MARGIN_IN - 0.001)

/-- Bottom margin check of compliance.ts line 840. -/
def bottomMarginCorrect (input : KDPComplianceInput) : Bool :=
  decide (input.bottomMarginIn ≥ MIN_BOTTOM_MARGIN_IN - 0.001)

/-- Conditional violation entry: the violations.push pattern of
compliance.ts. -/
def vioIf (ok : Bool) (msg : String) : List String :=
  if ok then [] else [msg]

/-- Offer page violation of compliance.ts lines 857-859 (publish-ready mode
with the offer page absent). -/
def offerViolation (input : KDPComplianceInput) : List String :=
  if input.outputMode = OutputMode.publishReady ∧ input.offerPagePresent = false then
    ["Offer page is not the final page (FR-94)."]
  else []

/-- The accumulated violation list of checkCompliance, in push order:
trim, inside, outside, top, bottom, fonts, offer page. -/
def complianceViolations (input : KDPComplianceInput) (required : KDPMargins) :
    List String :=
  vioIf (trimSizeCorrect input)
    "Trim size incorrect. Expected 432x648pt (6x9in)." ++
  vioIf (insideMarginCorrect input required)
    ("Inside margin " ++ toString input.insideMarginIn ++
      " is less than required " ++ toString required.inside ++
      " for " ++ toString input.pageCount ++ " pages (FR-85).") ++
  vioIf (outsideMarginCorrect input)
    ("Outside margin " ++ toString input.outsideMarginIn ++
      " is less than minimum " ++ toString MIN_OUTSIDE_MARGIN_IN ++ " (FR-85).") ++
  vioIf (topMarginCorrect input)
    ("Top margin " ++ toString input.topMarginIn ++
      " is less than minimum " ++ toString MIN_TOP_MARGIN_IN ++ " (FR-85).") ++
  vioIf (bottomMarginCorrect input)
    ("Bottom margin " ++ toString input.bottomMarginIn ++
      " is less than minimum " ++ toString MIN_BOTTOM_MARGIN_IN ++ " (FR-85).") ++
  vioIf input.fontsEmbedded
    "Fonts are not fully embedded (FR-86). KDP may reject the PDF." ++
  offerViolation input

/-- The offer_page_present field of the result: satisfied by definition in
personal mode (compliance.ts lines 854-856). -/
def offerPagePresentField (input : KDPComplianceInput) : Bool :=
  match input.outputMode with
  | .personal => true
  | .publishReady => input.offerPagePresent

/-- The result record assembled by checkCompliance once the required
margins are known (compliance.ts lines 864-876). -/
def complianceResultFor (input : KDPComplianceInput) (required : KDPMargins) :
    KDPComplianceResult :=
  { passes := decide ((complianceViolations input required).length = 0),
    trim_size_correct := trimSizeCorrect input,
    inside_margin_correct := insideMarginCorrect input required,
    outside_margin_correct := outsideMarginCorrect input,
    top_margin_correct := topMarginCorrect input,
    bottom_margin_correct := bottomMarginCorrect input,
    fonts_embedded := input.fontsEmbedded,
    page_count := input.pageCount,
    page_count_warning := decide (input.pageCount < KDP_MIN_PAGE_COUNT),
    offer_page_present := offerPagePresentField input,
    violations := complianceViolations input required }

/-- compliance.ts checkCompliance.  The inner calculateMargins call of line
812 can raise the RangeError, which propagates out of the check, hence the
Except result. -/
def checkCompliance (input : KDPComplianceInput) :
    Except EngineError KDPComplianceResult :=
  match calculateMargins input.pageCount with
  | .error e => .error e
  | .ok required => .ok (complianceResultFor input required)

/-! ## Fonts (src/ui/pdf/fonts.ts) -/

/-- The three embedded font faces (fonts.ts EmbeddedFonts). -/
inductive Face where
  | regular
  | bold
  | italic
deriving DecidableEq, Repr

/-- Font metric oracle: widthOfTextAtSize of the embedded pdf-lib font for a
face, modelled as an explicit input of the engine. -/
abbrev FontMeasure := Face → String → ℚ → ℚ

-- Font size constants of fonts.ts FONT_SIZES.
namespace FONT_SIZES

def TITLE : ℚ := 24
def SUBTITLE : ℚ := 16
def HEADING : ℚ := 14
def SUBHEADING : ℚ := 12
def BODY : ℚ := 11
def FOOTNOTE : ℚ := 9
def IMPRINT : ℚ := 10

end FONT_SIZES

/-! ## Block renderers (src/ui/pdf/blocks.ts) -/

/-- Leading multiplier: line height = font size * LEADING. -/
def LEADING : ℚ := 1.4

/-- Spacing after a block (points). -/
def BLOCK_SPACING : ℚ := 8

/-- Indent for block quotes (points), applied left and right. -/
def BLOCK_QUOTE_INDENT : ℚ := 36

/-- Width of the divider rule relative to content width (the 0.8 constant of
blocks.ts line 33, renamed here). -/
def DIVIDER_WIDTH_FRAC : ℚ := 0.8

/-- Pen colors used by blocks.ts: rgb(0,0,0) and rgb(0.3,0.3,0.3). -/
inductive PenColor where
  | black
  | darkGray
deriving DecidableEq, Repr

/-- One drawing operation onto a physical page: page.drawText or
page.drawLine of pdf-lib, with the arguments the source passes. -/
inductive DrawOp where
  | text (s : String) (x y : ℚ) (face : Face) (size : ℚ) (color : PenColor)
  | line (x1 y1 x2 y2 : ℚ) (thickness : ℚ) (color : PenColor)
deriving DecidableEq, Repr

/-- Split of a character list at a separator, the semantics of the
JavaScript String.prototype.split with a one-character separator (the only
form the source uses). -/
def splitChars (sep : Char) : List Char → List (List Char)
  | [] => [[]]
  | c :: rest =>
      let r := splitChars sep rest
      if c = sep then [] :: r
      else
        match r with
        | [] => [[c]]
        | h :: t => (c :: h) :: t

/-- JavaScript String.prototype.split with a one-character separator. -/
def jsSplit (sep : Char) (s : String) : List String :=
  (splitChars sep s.data).map String.mk

/-- The whitespace characters the source texts can contain, for trim. -/
def isJsWhitespace (c : Char) : Bool :=
  c = ' ' || c = '\n' || c = '\t' || c = '\r'

/-- JavaScript String.prototype.trim. -/
def jsTrim (s : String) : String :=
  ⟨((s.data.dropWhile isJsWhitespace).reverse.dropWhile isJsWhitespace).reverse⟩

/-- Greedy word wrap (blocks.ts wrapText): split on explicit newlines, wrap
each paragraph to maxWidth by the width oracle.  widthOf is the partially
applied font, so widthOf s size is font.widthOfTextAtSize(s, size). -/
def wrapText (widthOf : String → ℚ → ℚ) (text : String)
    (fontSize maxWidth : ℚ) : List String :=
  if text.length = 0 then []
  else
    (jsSplit '\n' text).foldl
      (fun lines paragraph =>
        let words := (jsSplit ' ' paragraph).filter (fun w => w.length > 0)
        if words = [] then lines ++ [""]
        else
          let fin := words.foldl
            (fun (acc : List String × String) word =>
              let candidate :=
                if acc.2.length = 0 then word else acc.2 ++ " " ++ word
              if widthOf candidate fontSize ≤ maxWidth then (acc.1, candidate)
              else
                (if acc.2.length > 0 then acc.1 ++ [acc.2] else acc.1, word))
            (lines, "")
          if fin.2.length > 0 then fin.1 ++ [fin.2] else fin.1)
      []

/-- blocks.ts drawLines: draw each line at successively lower y, return the
ops together with the new cursor. -/
def drawLines (lines : List String) (face : Face) (fontSize : ℚ)
    (startX startY lineHeight : ℚ) : List DrawOp × (ℚ × ℚ) :=
  let fin := lines.foldl
    (fun (acc : List DrawOp × ℚ) line =>
      (acc.1 ++ [.text line startX (acc.2 - fontSize) face fontSize .black],
       acc.2 - lineHeight))
    ([], startY)
  (fin.1, (startX, fin.2))

/-- Pure render context (the page handle, font handles and footnote
accumulator of blocks.ts RenderContext are replaced by the returned op list
and footnote list). -/
structure RenderCtx where
  cursorX : ℚ
  cursorY : ℚ
  contentWidth : ℚ
  contentX : ℚ
deriving DecidableEq, Repr

/-- Result of one block renderer: the new cursor (blocks.ts RenderResult)
plus the drawing side effects and footnote accumulation made explicit. -/
structure RenderOut where
  cursorX : ℚ
  cursorY : ℚ
  ops : List DrawOp
  newFootnotes : List DocumentBlock
deriving DecidableEq, Repr

/-- blocks.ts renderHeading. -/
def renderHeading (measure : FontMeasure) (block : DocumentBlock)
    (ctx : RenderCtx) : RenderOut :=
  let size := FONT_SIZES.HEADING
  let lineHeight := size * LEADING
  let lines := wrapText (measure .bold) block.content size ctx.contentWidth
  let res := drawLines lines .bold size ctx.contentX ctx.cursorY lineHeight
  { cursorX := res.2.1, cursorY := res.2.2 - BLOCK_SPACING,
    ops := res.1, newFootnotes := [] }

/-- blocks.ts renderBodyText. -/
def renderBodyText (measure : FontMeasure) (block : DocumentBlock)
    (ctx : RenderCtx) : RenderOut :=
  let size := FONT_SIZES.BODY
  let lineHeight := size * LEADING
  let lines := wrapText (measure .regular) block.content size ctx.contentWidth
  let res := drawLines lines .regular size ctx.contentX ctx.cursorY lineHeight
  { cursorX := res.2.1, cursorY := res.2.2 - BLOCK_SPACING,
    ops := res.1, newFootnotes := [] }

/-- blocks.ts renderBlockQuote: symmetric indent before wrapping. -/
def renderBlockQuote (measure : FontMeasure) (block : DocumentBlock)
    (ctx : RenderCtx) : RenderOut :=
  let size := FONT_SIZES.BODY
  let lineHeight := size * LEADING
  let indentedX := ctx.contentX + BLOCK_QUOTE_INDENT
  let indentedWidth := ctx.contentWidth - BLOCK_QUOTE_INDENT * 2
  let lines := wrapText (measure .italic) block.content size indentedWidth
  let res := drawLines lines .italic size indentedX ctx.cursorY lineHeight
  { cursorX := res.2.1, cursorY := res.2.2 - BLOCK_SPACING,
    ops := res.1, newFootnotes := [] }

/-- blocks.ts renderFootnote: no drawing, no cursor advancement, the block
is appended to the pending footnote accumulator. -/
def renderFootnote (block : DocumentBlock) (ctx : RenderCtx) : RenderOut :=
  { cursorX := ctx.cursorX, cursorY := ctx.cursorY,
    ops := [], newFootnotes := [block] }

/-- blocks.ts renderPromptList: split on line breaks, bullet-prefix each
item, wrap each independently. -/
def renderPromptList (measure : FontMeasure) (block : DocumentBlock)
    (ctx : RenderCtx) : RenderOut :=
  let size := FONT_SIZES.BODY
  let lineHeight := size * LEADING
  let items := ((jsSplit '\n' block.content).filter
      (fun line => (jsTrim line).length > 0)).map (fun line => "• " ++ jsTrim line)
  let allLines := items.foldl
    (fun acc item => acc ++ wrapText (measure .regular) item size ctx.contentWidth) []
  let res := drawLines allLines .regular size ctx.contentX ctx.cursorY lineHeight
  { cursorX := res.2.1, cursorY := res.2.2 - BLOCK_SPACING,
    ops := res.1, newFootnotes := [] }

/-- blocks.ts renderActionList. -/
def renderActionList (measure : FontMeasure) (block : DocumentBlock)
    (ctx : RenderCtx) : RenderOut :=
  let size := FONT_SIZES.BODY
  let lineHeight := size * LEADING
  let items := ((jsSplit '\n' block.content).filter
      (fun line => (jsTrim line).length > 0)).map (fun line => "→ " ++ jsTrim line)
  let allLines := items.foldl
    (fun acc item => acc ++ wrapText (measure .regular) item size ctx.contentWidth) []
  let res := drawLines allLines .regular size ctx.contentX ctx.cursorY lineHeight
  { cursorX := res.2.1, cursorY := res.2.2 - BLOCK_SPACING,
    ops := res.1, newFootnotes := [] }

/-- blocks.ts renderDivider: a centered horizontal rule, no text. -/
def renderDivider (ctx : RenderCtx) : RenderOut :=
  let ruleWidth := ctx.contentWidth * DIVIDER_WIDTH_FRAC
  let ruleX := ctx.contentX + (ctx.contentWidth - ruleWidth) / 2
  let ruleY := ctx.cursorY - 8
  { cursorX := ctx.contentX, cursorY := ruleY - 8 - BLOCK_SPACING,
    ops := [.line ruleX ruleY (ruleX + ruleWidth) ruleY 0.5 .darkGray],
    newFootnotes := [] }

/-- blocks.ts renderPageBreak: no drawing; the returned cursor is unused
because the engine replaces it. -/
def renderPageBreak (ctx : RenderCtx) : RenderOut :=
  { cursorX := ctx.cursorX, cursorY := ctx.cursorY,
    ops := [], newFootnotes := [] }

/-- blocks.ts renderTitle (double spacing after the block). -/
def renderTitle (measure : FontMeasure) (block : DocumentBlock)
    (ctx : RenderCtx) : RenderOut :=
  let size := FONT_SIZES.TITLE
  let lineHeight := size * LEADING
  let lines := wrapText (measure .bold) block.content size ctx.contentWidth
  let res := drawLines lines .bold size ctx.contentX ctx.cursorY lineHeight
  { cursorX := res.2.1, cursorY := res.2.2 - BLOCK_SPACING * 2,
    ops := res.1, newFootnotes := [] }

/-- blocks.ts renderSubtitle. -/
def renderSubtitle (measure : FontMeasure) (block : DocumentBlock)
    (ctx : RenderCtx) : RenderOut :=
  let size := FONT_SIZES.SUBTITLE
  let lineHeight := size * LEADING
  let lines := wrapText (measure .italic) block.content size ctx.contentWidth
  let res := drawLines lines .italic size ctx.contentX ctx.cursorY lineHeight
  { cursorX := res.2.1, cursorY := res.2.2 - BLOCK_SPACING,
    ops := res.1, newFootnotes := [] }

/-- blocks.ts renderImprint. -/
def renderImprint (measure : FontMeasure) (block : DocumentBlock)
    (ctx : RenderCtx) : RenderOut :=
  let size := FONT_SIZES.IMPRINT
  let lineHeight := size * LEADING
  let lines := wrapText (measure .regular) block.content size ctx.contentWidth
  let res := drawLines lines .regular size ctx.contentX ctx.cursorY lineHeight
  { cursorX := res.2.1, cursorY := res.2.2 - BLOCK_SPACING,
    ops := res.1, newFootnotes := [] }

/-- blocks.ts renderTocEntry (tighter 4pt spacing). -/
def renderTocEntry (measure : FontMeasure) (block : DocumentBlock)
    (ctx : RenderCtx) : RenderOut :=
  let size := FONT_SIZES.BODY
  let lineHeight := size * LEADING
  let lines := wrapText (measure .regular) block.content size ctx.contentWidth
  let res := drawLines lines .regular size ctx.contentX ctx.cursorY lineHeight
  { cursorX := res.2.1, cursorY := res.2.2 - 4,
    ops := res.1, newFootnotes := [] }

/-- blocks.ts renderBlock: the BLOCK_RENDERERS dispatch on block_type. -/
def renderBlock (measure : FontMeasure) (block : DocumentBlock)
    (ctx : RenderCtx) : RenderOut :=
  match block.block_type with
  | .heading => renderHeading measure block ctx
  | .body_text => renderBodyText measure block ctx
  | .block_quote => renderBlockQuote measure block ctx
  | .footnote => renderFootnote block ctx
  | .prompt_list => renderPromptList measure block ctx
  | .action_list => renderActionList measure block ctx
  | .divider => renderDivider ctx
  | .page_break => renderPageBreak ctx
  | .title => renderTitle measure block ctx
  | .subtitle => renderSubtitle measure block ctx
  | .imprint => renderImprint measure block ctx
  | .toc_entry => renderTocEntry measure block ctx

/-- blocks.ts renderPageFootnotes: separator rule plus the accumulated
footnote texts, drawn above bottomY. -/
def renderPageFootnotes (measure : FontMeasure) (footnotes : List DocumentBlock)
    (contentX contentWidth bottomY : ℚ) : List DrawOp :=
  if footnotes.length = 0 then []
  else
    let size := FONT_SIZES.FOOTNOTE
    let lineHeight := size * LEADING
    let ruleWidth := contentWidth * 0.3
    let ruleY := bottomY + (footnotes.length : ℚ) * lineHeight * 2 + 8
    let ruleOp : DrawOp :=
      .line contentX ruleY (contentX + ruleWidth) ruleY 0.5 .darkGray
    let fin := footnotes.foldl
      (fun (acc : List DrawOp × ℚ) footnote =>
        let lines := wrapText (measure .regular) footnote.content size contentWidth
        lines.foldl
          (fun (acc2 : List DrawOp × ℚ) line =>
            (acc2.1 ++ [.text line contentX (acc2.2 - size) .regular size .darkGray],
             acc2.2 - lineHeight))
          acc)
      ([ruleOp], ruleY - lineHeight)
    fin.1

/-! ## Layout engine (engine.ts) -/

/-- Height reserved at page bottom for page number and footnote separator. -/
def PAGE_NUMBER_HEIGHT_PT : ℚ := 20

/-- Loop of toRoman over the subtractive-pair table: the inner while loop
appends the symbol rem / value times and keeps rem % value. -/
def toRomanLoop : List (Nat × String) → Nat → String
  | [], _ => ""
  | pair :: rest, rem =>
      String.join (List.replicate (rem / pair.1) pair.2) ++ toRomanLoop rest (rem % pair.1)

/-- engine.ts toRoman: lowercase classical numerals with subtractive pairs;
nonpositive input yields the empty string. -/
def toRoman (n : Nat) : String :=
  if n = 0 then ""
  else
    toRomanLoop
      [(1000, "m"), (900, "cm"), (500, "d"), (400, "cd"), (100, "c"),
       (90, "xc"), (50, "l"), (40, "xl"), (10, "x"), (9, "ix"),
       (5, "v"), (4, "iv"), (1, "i")] n

/-- engine.ts drawPageNumber: nothing for suppressed style, else the Roman
or Arabic numeral centered in the content width. -/
def drawPageNumber (measure : FontMeasure) (style : PageNumberStyle)
    (numDisplay : Nat) (contentX contentWidth y : ℚ) : List DrawOp :=
  match style with
  | .suppressed => []
  | _ =>
    let text := if style = .roman then toRoman numDisplay else toString numDisplay
    let size := FONT_SIZES.IMPRINT
    let textWidth := measure .regular text size
    let x := contentX + (contentWidth - textWidth) / 2
    [.text text x y .regular size .black]

/-- Geometry derived at the top of renderLayout (engine.ts lines 126-135)
plus the font metric oracle. -/
structure LayoutConfig where
  measure : FontMeasure
  insidePt : ℚ
  outsidePt : ℚ
  topPt : ℚ
  bottomPt : ℚ
  contentX : ℚ
  contentWidth : ℚ
  contentTopY : ℚ
  contentFloorY : ℚ

/-- Lowest y the cursor may reach before a new page is started
(engine.ts line 135). -/
def contentFloorYOf (bottomPt : ℚ) : ℚ :=
  bottomPt + PAGE_NUMBER_HEIGHT_PT + 10

/-- Top of the content area (engine.ts line 133). -/
def contentTopYOf (topPt : ℚ) : ℚ :=
  TRIM_HEIGHT_PT - topPt

/-- Builds the per-pass geometry from the margin inches. -/
def mkConfig (measure : FontMeasure) (insideIn outsideIn topIn bottomIn : ℚ) :
    LayoutConfig :=
  let insidePt := insideIn * 72
  let outsidePt := outsideIn * 72
  { measure := measure,
    insidePt := insidePt, outsidePt := outsidePt,
    topPt := topIn * 72, bottomPt := bottomIn * 72,
    contentX := insidePt,
    contentWidth := TRIM_WIDTH_PT - insidePt - outsidePt,
    contentTopY := contentTopYOf (topIn * 72),
    contentFloorY := contentFloorYOf (bottomIn * 72) }

/-- Ghost trace entry: one renderBlock invocation made by the engine loop,
with the index of the open physical page (finalized pages so far) and the
cursor y at which the renderer starts. -/
structure RenderEvent where
  block : DocumentBlock
  pageIndex : Nat
  y : ℚ
deriving DecidableEq, Repr

/-- One finalized physical page: all its draw operations, plus the content
ops, flushed footnotes, numbering style and displayed counter recorded at
finalization time. -/
structure PhysPage where
  allOps : List DrawOp
  contentOps : List DrawOp
  footnotes : List DocumentBlock
  style : PageNumberStyle
  numDisplay : Nat
deriving DecidableEq, Repr

/-- The mutable state of renderLayout (engine.ts lines 139-147), with the
open page represented by its accumulated content ops, plus the ghost
renderLog trace. -/
structure EngineState where
  pages : List PhysPage
  curOps : List DrawOp
  pageDimensions : List (ℚ × ℚ)
  pdfPageCount : Nat
  cursorX : ℚ
  cursorY : ℚ
  pendingFootnotes : List DocumentBlock
  currentStyle : PageNumberStyle
  romanCounter : Nat
  arabicCounter : Nat
  renderLog : List RenderEvent

/-- Initial engine state: the first physical page is created eagerly
(engine.ts lines 140-147). -/
def initState (cfg : LayoutConfig) : EngineState :=
  { pages := [], curOps := [],
    pageDimensions := [(TRIM_WIDTH_PT, TRIM_HEIGHT_PT)],
    pdfPageCount := 1,
    cursorX := cfg.contentX, cursorY := cfg.contentTopY,
    pendingFootnotes := [],
    currentStyle := .suppressed,
    romanCounter := 0, arabicCounter := 0,
    renderLog := [] }

/-- engine.ts finalizeCurrentPage: flush pending footnotes at the bottom
region, then draw the page number with the current style and counter.  The
result is the finalized physical page. -/
def finalizePage (cfg : LayoutConfig) (st : EngineState) : PhysPage :=
  let footnotesY := cfg.bottomPt + PAGE_NUMBER_HEIGHT_PT + 4
  let footOps := renderPageFootnotes cfg.measure st.pendingFootnotes
    cfg.contentX cfg.contentWidth footnotesY
  let numDisplay :=
    if st.currentStyle = .roman then st.romanCounter else st.arabicCounter
  let numOps := drawPageNumber cfg.measure st.currentStyle numDisplay
    cfg.contentX cfg.contentWidth (cfg.bottomPt / 2)
  { allOps := st.curOps ++ footOps ++ numOps,
    contentOps := st.curOps,
    footnotes := st.pendingFootnotes,
    style := st.currentStyle,
    numDisplay := numDisplay }

/-- engine.ts advancePage: finalize the current physical page, open a new
one, reset the cursor, adopt the style, optionally increment its counter. -/
def advancePage (cfg : LayoutConfig) (st : EngineState)
    (style : PageNumberStyle) (incrementCounter : Bool) : EngineState :=
  let pg := finalizePage cfg st
  { st with
    pages := st.pages ++ [pg],
    curOps := [],
    pendingFootnotes := [],
    pageDimensions := st.pageDimensions ++ [(TRIM_WIDTH_PT, TRIM_HEIGHT_PT)],
    pdfPageCount := st.pdfPageCount + 1,
    cursorX := cfg.contentX, cursorY := cfg.contentTopY,
    currentStyle := style,
    romanCounter :=
      if incrementCounter then
        (if style = .roman then st.romanCounter + 1 else st.romanCounter)
      else st.romanCounter,
    arabicCounter :=
      if incrementCounter then
        (if style = .arabic then st.arabicCounter + 1 else st.arabicCounter)
      else st.arabicCounter }

/-- Body of the inner block loop of renderLayout (engine.ts lines 187-214):
explicit page break, overflow check, then renderBlock. -/
def processBlock (cfg : LayoutConfig) (pageStyle : PageNumberStyle)
    (st : EngineState) (b : DocumentBlock) : EngineState :=
  if b.block_type = BlockType.page_break then
    let st := advancePage cfg st pageStyle false
    { st with cursorX := cfg.contentX, cursorY := cfg.contentTopY }
  else
    let st :=
      if st.cursorY < cfg.contentFloorY then
        let st := advancePage cfg st pageStyle false
        let st :=
          { st with
            romanCounter :=
              if pageStyle = PageNumberStyle.roman then st.romanCounter + 1
              else st.romanCounter,
            arabicCounter :=
              if pageStyle = PageNumberStyle.arabic then st.arabicCounter + 1
              else st.arabicCounter }
        { st with cursorX := cfg.contentX, cursorY := cfg.contentTopY }
      else st
    let out := renderBlock cfg.measure b
      { cursorX := st.cursorX, cursorY := st.cursorY,
        contentWidth := cfg.contentWidth, contentX := cfg.contentX }
    { st with
      cursorX := out.cursorX, cursorY := out.cursorY,
      curOps := st.curOps ++ out.ops,
      pendingFootnotes := st.pendingFootnotes ++ out.newFootnotes,
      renderLog := st.renderLog ++
        [{ block := b, pageIndex := st.pages.length, y := st.cursorY }] }

/-- Body of the outer logical page loop of renderLayout (engine.ts lines
172-215): the first page initializes style and counter in place, every
later page advances with a counter increment; then the cursor is reset and
the blocks of the logical page are processed. -/
def processDocPage (cfg : LayoutConfig) (first : Bool) (st : EngineState)
    (docPage : DocumentPage) : EngineState :=
  let pageStyle := docPage.page_number_style.getD .arabic
  let st :=
    if first then
      { st with
        currentStyle := pageStyle,
        romanCounter := if pageStyle = .roman then 1 else st.romanCounter,
        arabicCounter := if pageStyle = .arabic then 1 else st.arabicCounter }
    else advancePage cfg st pageStyle true
  let st := { st with cursorX := cfg.contentX, cursorY := cfg.contentTopY }
  docPage.blocks.foldl (processBlock cfg pageStyle) st

/-- engine.ts LayoutResult, with the finished page set made explicit and the
ghost renderLog carried along. -/
structure LayoutResult where
  pages : List PhysPage
  pageCount : Nat
  pageDimensions : List (ℚ × ℚ)
  insideMarginIn : ℚ
  outsideMarginIn : ℚ
  topMarginIn : ℚ
  bottomMarginIn : ℚ
  renderLog : List RenderEvent
deriving DecidableEq, Repr

/-- engine.ts renderLayout: run the whole document through the page state
machine once, with the given margins. -/
def renderLayout (measure : FontMeasure) (document : DocumentRepresentation)
    (outputMode : OutputMode) (insideIn outsideIn topIn bottomIn : ℚ) :
    LayoutResult :=
  let _ := outputMode
  let cfg := mkConfig measure insideIn outsideIn topIn bottomIn
  let allDocPages := document.front_matter ++ document.content_pages
  let st :=
    match allDocPages with
    | [] => initState cfg
    | p :: rest =>
        rest.foldl (processDocPage cfg false) (processDocPage cfg true (initState cfg) p)
  let finalPg := finalizePage cfg st
  { pages := st.pages ++ [finalPg],
    pageCount := st.pdfPageCount,
    pageDimensions := st.pageDimensions,
    insideMarginIn := insideIn, outsideMarginIn := outsideIn,
    topMarginIn := topIn, bottomMarginIn := bottomIn,
    renderLog := st.renderLog }

/-- Substring containment, the JavaScript String.prototype.includes of the
source: the pattern occurs as a contiguous infix. -/
def strIncludes (s pat : String) : Bool :=
  decide (pat.data <:+: s.data)

/-- engine.ts hasOfferPage: whether the last content page contains offer
page content (FR-94). -/
def hasOfferPage (document : DocumentRepresentation) : Bool :=
  match document.content_pages.getLast? with
  | none => false
  | some lastPage =>
      lastPage.blocks.any fun b =>
        strIncludes b.content "sacredwhisperspublishing.com" ||
        strIncludes b.content "offer"

/-- Serialization of the finished document (pdf-lib doc.save), modelled as
the content-pure byte image of the drawn pages: pdf-lib is an external
collaborator and its output is a function of the document content here. -/
def saveDoc (layout : LayoutResult) : List (List DrawOp) :=
  layout.pages.map PhysPage.allOps

/-- engine.ts PDFEngineResult. -/
structure PDFEngineResult where
  pdfBytes : List (List DrawOp)
  pageCount : Nat
  marginsBracket : String
  complianceResult : KDPComplianceResult
deriving DecidableEq, Repr

/-- The compliance checker input assembled by generatePDF (engine.ts lines
272-282). -/
def complianceInputFor (layout : LayoutResult)
    (document : DocumentRepresentation) (outputMode : OutputMode) :
    KDPComplianceInput :=
  { pageDimensions := layout.pageDimensions,
    pageCount := layout.pageCount,
    insideMarginIn := layout.insideMarginIn,
    outsideMarginIn := layout.outsideMarginIn,
    topMarginIn := layout.topMarginIn,
    bottomMarginIn := layout.bottomMarginIn,
    fontsEmbedded := true,
    offerPagePresent := hasOfferPage document,
    outputMode := outputMode }

/-- engine.ts generatePDF: pass 1 with the default 0.375in margins, margin
recomputation from the pass 1 page count, optional pass 2, serialization
and compliance check. -/
def generatePDF (measure : FontMeasure) (document : DocumentRepresentation)
    (outputMode : OutputMode) : Except EngineError PDFEngineResult :=
  let defaultIn : ℚ := 0.375
  let pass1 := renderLayout measure document outputMode
    defaultIn defaultIn defaultIn defaultIn
  match calculateMargins pass1.pageCount with
  | .error e => .error e
  | .ok finalMargins =>
    match describeMarginBracket pass1.pageCount with
    | .error e => .error e
    | .ok bracket =>
      let layout :=
        if |finalMargins.inside - defaultIn| < 0.001 then pass1
        else renderLayout measure document outputMode
          finalMargins.inside finalMargins.outside finalMargins.top finalMargins.bottom
      match checkCompliance (complianceInputFor layout document outputMode) with
      | .error e => .error e
      | .ok complianceResult =>
        .ok { pdfBytes := saveDoc layout,
              pageCount := layout.pageCount,
              marginsBracket := bracket,
              complianceResult := complianceResult }

/-- The engine with the ambient wall clock made an explicit input.  No
function of engine.ts, blocks.ts, margins.ts, fonts.ts or compliance.ts
reads the clock (no Date or randomness appears in those sources), so the
clock argument is simply ignored, exactly as in the source. -/
def generatePDFAt (wallClock : Nat) (measure : FontMeasure)
    (document : DocumentRepresentation) (outputMode : OutputMode) :
    Except EngineError PDFEngineResult :=
  let _ := wallClock
  generatePDF measure document outputMode

/-! ## Margin resolver theorems -/

-- Decidable equality on fallible results, for concrete evaluation.
deriving instance DecidableEq for Except

/-- Closed form of calculateMargins over the five-bracket table. -/
theorem calculateMargins_eq (p : Nat) :
    calculateMargins p =
      if p ≤ 150 then .ok ⟨0.375, 0.375, 0.375, 0.375⟩
      else if p ≤ 300 then .ok ⟨0.500, 0.375, 0.375, 0.375⟩
      else if p ≤ 500 then .ok ⟨0.625, 0.375, 0.375, 0.375⟩
      else if p ≤ 700 then .ok ⟨0.750, 0.375, 0.375, 0.375⟩
      else if p ≤ 828 then .ok ⟨0.875, 0.375, 0.375, 0.375⟩
      else .error (.rangeError
        ("Page count " ++ toString p ++ " exceeds KDP maximum of 828 pages.")) := by
  simp only [calculateMargins, INSIDE_MARGIN_BRACKETS, calculateMarginsLoop,
    OUTSIDE_MARGIN_INCHES, TOP_MARGIN_INCHES, BOTTOM_MARGIN_INCHES]

/-- C5: calculateMargins is a pure monotonically non-decreasing step
function of page count; outside, top and bottom margins are the fixed
0.375 inches for every page count; at each bracket edge (150 to 151, 300
to 301, 500 to 501, 700 to 701) the inside margin grows by exactly 0.125
inches. -/
theorem margin_step_function :
    (∀ p1 p2 m1 m2, p1 ≤ p2 → p2 ≤ 828 →
        calculateMargins p1 = .ok m1 → calculateMargins p2 = .ok m2 →
        m1.inside ≤ m2.inside) ∧
    (∀ p m, calculateMargins p = .ok m →
        m.outside = 0.375 ∧ m.top = 0.375 ∧ m.bottom = 0.375) ∧
    (calculateMargins 150 = .ok ⟨0.375, 0.375, 0.375, 0.375⟩ ∧
     calculateMargins 151 = .ok ⟨0.375 + 0.125, 0.375, 0.375, 0.375⟩ ∧
     calculateMargins 300 = .ok ⟨0.500, 0.375, 0.375, 0.375⟩ ∧
     calculateMargins 301 = .ok ⟨0.500 + 0.125, 0.375, 0.375, 0.375⟩ ∧
     calculateMargins 500 = .ok ⟨0.625, 0.375, 0.375, 0.375⟩ ∧
     calculateMargins 501 = .ok ⟨0.625 + 0.125, 0.375, 0.375, 0.375⟩ ∧
     calculateMargins 700 = .ok ⟨0.750, 0.375, 0.375, 0.375⟩ ∧
     calculateMargins 701 = .ok ⟨0.750 + 0.125, 0.375, 0.375, 0.375⟩) := by
  refine ⟨?_, ?_, ?_⟩
  · intro p1 p2 m1 m2 h12 h828 h1 h2
    rw [calculateMargins_eq] at h1 h2
    split_ifs at h1 h2 <;>
      first
        | omega
        | (injection h1 with e1; injection h2 with e2; subst e1; subst e2; decide)
  · intro p m h
    rw [calculateMargins_eq] at h
    split_ifs at h <;>
      first
        | (injection h with e; subst e; decide)
        | injection h
  · refine ⟨by decide, by decide, by decide, by decide, by decide, by decide,
      by decide, by decide⟩

/-- Witness for the hypotheses of margin_step_function, at page counts 100
and 200. -/
theorem margin_step_function_witness :
    (100 ≤ 200 ∧ 200 ≤ 828 ∧
      calculateMargins 100 = .ok ⟨0.375, 0.375, 0.375, 0.375⟩ ∧
      calculateMargins 200 = .ok ⟨0.500, 0.375, 0.375, 0.375⟩ ∧
      (KDPMargins.mk 0.375 0.375 0.375 0.375).inside ≤
        (KDPMargins.mk 0.500 0.375 0.375 0.375).inside) ∧
    ((KDPMargins.mk 0.500 0.375 0.375 0.375).outside = 0.375 ∧
      (KDPMargins.mk 0.500 0.375 0.375 0.375).top = 0.375 ∧
      (KDPMargins.mk 0.500 0.375 0.375 0.375).bottom = 0.375) :=
  ⟨⟨by decide, by decide, by decide, by decide,
    margin_step_function.1 100 200 ⟨0.375, 0.375, 0.375, 0.375⟩
      ⟨0.500, 0.375, 0.375, 0.375⟩ (by decide) (by decide) (by decide) (by decide)⟩,
   margin_step_function.2.1 200 ⟨0.500, 0.375, 0.375, 0.375⟩ (by decide)⟩

/-- C6: every page count up to 828 resolves to margins normally; every page
count above 828 raises the distinct RangeError instead of clamping; and when
pass one of generatePDF produces such a page count the whole call aborts
with that error and no PDF bytes. -/
theorem page_count_over_max_fatal :
    (∀ p, p ≤ 828 → ∃ m, calculateMargins p = .ok m) ∧
    (∀ p, 828 < p → calculateMargins p = .error (.rangeError
        ("Page count " ++ toString p ++ " exceeds KDP maximum of 828 pages."))) ∧
    (∀ measure document outputMode,
      828 < (renderLayout measure document outputMode 0.375 0.375 0.375 0.375).pageCount →
      generatePDF measure document outputMode = .error (.rangeError
        ("Page count " ++
         toString (renderLayout measure document outputMode 0.375 0.375 0.375 0.375).pageCount ++
         " exceeds KDP maximum of 828 pages."))) := by
  have hok : ∀ p, p ≤ 828 → ∃ m, calculateMargins p = .ok m := by
    intro p hp
    rw [calculateMargins_eq]
    split_ifs <;> first | exact ⟨_, rfl⟩ | omega
  have herr : ∀ p, 828 < p → calculateMargins p = .error (.rangeError
      ("Page count " ++ toString p ++ " exceeds KDP maximum of 828 pages.")) := by
    intro p hp
    rw [calculateMargins_eq]
    split_ifs <;> first | rfl | omega
  refine ⟨hok, herr, ?_⟩
  intro measure document outputMode hp
  simp only [generatePDF, herr _ hp]

set_option maxRecDepth 100000 in
/-- Witness for page_count_over_max_fatal: a document of 829 empty logical
pages drives pass one past the largest bracket, and generatePDF aborts. -/
theorem page_count_over_max_fatal_witness :
    (100 ≤ 828 ∧ ∃ m, calculateMargins 100 = .ok m) ∧
    (828 < 900 ∧ calculateMargins 900 = .error (.rangeError
        ("Page count " ++ toString 900 ++ " exceeds KDP maximum of 828 pages."))) ∧
    (828 < (renderLayout (fun _ _ _ => 0)
        { title := "big", front_matter := [],
          content_pages := List.replicate 829 { blocks := [] } }
        OutputMode.personal 0.375 0.375 0.375 0.375).pageCount ∧
     generatePDF (fun _ _ _ => 0)
        { title := "big", front_matter := [],
          content_pages := List.replicate 829 { blocks := [] } }
        OutputMode.personal = .error (.rangeError
          ("Page count " ++
           toString (renderLayout (fun _ _ _ => 0)
             { title := "big", front_matter := [],
               content_pages := List.replicate 829 { blocks := [] } }
             OutputMode.personal 0.375 0.375 0.375 0.375).pageCount ++
           " exceeds KDP maximum of 828 pages."))) :=
  ⟨⟨by decide, page_count_over_max_fatal.1 100 (by decide)⟩,
   ⟨by decide, page_count_over_max_fatal.2.1 900 (by decide)⟩,
   by decide,
   page_count_over_max_fatal.2.2 (fun _ _ _ => 0)
     { title := "big", front_matter := [],
       content_pages := List.replicate 829 { blocks := [] } }
     OutputMode.personal (by decide)⟩

/-! ## Compliance checker theorems -/

/-- checkCompliance succeeds exactly by assembling complianceResultFor once
the margin resolver succeeds. -/
theorem checkCompliance_ok (input : KDPComplianceInput) (required : KDPMargins)
    (hm : calculateMargins input.pageCount = .ok required) :
    checkCompliance input = .ok (complianceResultFor input required) := by
  simp [checkCompliance, hm]

/-- Length of a conditional violation entry. -/
theorem vioIf_length (b : Bool) (msg : String) :
    (vioIf b msg).length = if b then 0 else 1 := by
  cases b <;> simp [vioIf]

/-- C7: a page count below 24 sets page_count_warning without adding any
violation (the violation list of the same input with the page count raised
to the minimum has the same length and the same pass flag), and in every
mode passes holds exactly when the violation list is empty, so a
below-minimum page count alone never makes passes false. -/
theorem low_page_count_warning_not_violation :
    ∀ input r, checkCompliance input = .ok r →
      (r.passes = true ↔ r.violations = []) ∧
      (input.pageCount < 24 →
        r.page_count_warning = true ∧
        ∃ r2, checkCompliance { input with pageCount := 24 } = .ok r2 ∧
          r2.violations.length = r.violations.length ∧
          r2.passes = r.passes) := by
  intro input r h
  unfold checkCompliance at h
  cases hm : calculateMargins input.pageCount with
  | error e => rw [hm] at h; cases h
  | ok req =>
    rw [hm] at h
    injection h with h
    subst h
    constructor
    · simp [complianceResultFor, List.length_eq_zero]
    · intro hp
      have hreq : req = ⟨0.375, 0.375, 0.375, 0.375⟩ := by
        rw [calculateMargins_eq] at hm
        have h150 : input.pageCount ≤ 150 := by omega
        simp only [h150, if_pos] at hm
        injection hm with hm
        exact hm.symm
      subst hreq
      have h24 : calculateMargins
          ({ input with pageCount := 24 } : KDPComplianceInput).pageCount =
          .ok ⟨0.375, 0.375, 0.375, 0.375⟩ := by
        show calculateMargins 24 = _
        decide
      have hlen : (complianceViolations { input with pageCount := 24 }
            ⟨0.375, 0.375, 0.375, 0.375⟩).length =
          (complianceViolations input ⟨0.375, 0.375, 0.375, 0.375⟩).length := by
        simp only [complianceViolations, List.length_append, vioIf_length]
        rfl
      refine ⟨?_, complianceResultFor { input with pageCount := 24 }
          ⟨0.375, 0.375, 0.375, 0.375⟩, checkCompliance_ok _ _ h24, hlen, ?_⟩
      · simp only [complianceResultFor, KDP_MIN_PAGE_COUNT,
          decide_eq_true_eq]
        omega
      · simp only [complianceResultFor, hlen]

/-- A fully compliant ten-page input used to witness the low page count
claim. -/
def smallCompliantInput : KDPComplianceInput :=
  { pageDimensions := [(432, 648)], pageCount := 10,
    insideMarginIn := 0.375, outsideMarginIn := 0.375,
    topMarginIn := 0.375, bottomMarginIn := 0.375,
    fontsEmbedded := true, offerPagePresent := true,
    outputMode := .publishReady }

/-- Witness for low_page_count_warning_not_violation at a concrete
compliant ten-page input. -/
theorem low_page_count_warning_not_violation_witness :
    ((complianceResultFor smallCompliantInput ⟨0.375, 0.375, 0.375, 0.375⟩).passes = true ↔
      (complianceResultFor smallCompliantInput ⟨0.375, 0.375, 0.375, 0.375⟩).violations = []) ∧
    (smallCompliantInput.pageCount < 24 →
      (complianceResultFor smallCompliantInput ⟨0.375, 0.375, 0.375, 0.375⟩).page_count_warning = true ∧
      ∃ r2, checkCompliance { smallCompliantInput with pageCount := 24 } = .ok r2 ∧
        r2.violations.length =
          (complianceResultFor smallCompliantInput ⟨0.375, 0.375, 0.375, 0.375⟩).violations.length ∧
        r2.passes = (complianceResultFor smallCompliantInput ⟨0.375, 0.375, 0.375, 0.375⟩).passes) :=
  low_page_count_warning_not_violation smallCompliantInput
    (complianceResultFor smallCompliantInput ⟨0.375, 0.375, 0.375, 0.375⟩)
    (by decide)

/-- When every individually checked rule holds, the violation list reduces
to the offer page component alone. -/
theorem complianceViolations_offer_only (input : KDPComplianceInput)
    (required : KDPMargins)
    (htrim : trimSizeCorrect input = true)
    (hins : insideMarginCorrect input required = true)
    (houts : outsideMarginCorrect input = true)
    (htop : topMarginCorrect input = true)
    (hbot : bottomMarginCorrect input = true)
    (hfonts : input.fontsEmbedded = true) :
    complianceViolations input required = offerViolation input := by
  simp [complianceViolations, vioIf, htrim, hins, houts, htop, hbot, hfonts]

/-- C8: with the trailing offer page marker absent and every other rule
satisfied, publish-ready mode fails the compliance check with exactly the
offer page violation, while personal mode passes with offer_page_present
reported satisfied by definition. -/
theorem offer_page_mode_sensitivity :
    ∀ document input required,
      hasOfferPage document = false →
      input.offerPagePresent = hasOfferPage document →
      calculateMargins input.pageCount = .ok required →
      trimSizeCorrect input = true →
      insideMarginCorrect input required = true →
      outsideMarginCorrect input = true →
      topMarginCorrect input = true →
      bottomMarginCorrect input = true →
      input.fontsEmbedded = true →
      (∀ r, checkCompliance { input with outputMode := .publishReady } = .ok r →
          r.passes = false ∧
          r.violations = ["Offer page is not the final page (FR-94)."]) ∧
      (∀ r, checkCompliance { input with outputMode := .personal } = .ok r →
          r.passes = true ∧ r.violations = [] ∧ r.offer_page_present = true) := by
  intro document input required hdoc hoffer hm htrim hins houts htop hbot hfonts
  rw [hdoc] at hoffer
  constructor
  · intro r h
    have hm2 : calculateMargins
        ({ input with outputMode := .publishReady } : KDPComplianceInput).pageCount =
        .ok required := hm
    rw [checkCompliance_ok _ _ hm2] at h
    injection h with h
    subst h
    have hv : complianceViolations { input with outputMode := .publishReady } required =
        offerViolation { input with outputMode := .publishReady } :=
      complianceViolations_offer_only _ required htrim hins houts htop hbot hfonts
    have hoffer2 : ({ input with outputMode := .publishReady } :
        KDPComplianceInput).offerPagePresent = false := hoffer
    have ho : offerViolation { input with outputMode := .publishReady } =
        ["Offer page is not the final page (FR-94)."] := by
      rw [offerViolation, if_pos]
      exact ⟨rfl, hoffer2⟩
    constructor
    · simp [complianceResultFor, hv, ho]
    · simp only [complianceResultFor]
      rw [hv, ho]
  · intro r h
    have hm2 : calculateMargins
        ({ input with outputMode := .personal } : KDPComplianceInput).pageCount =
        .ok required := hm
    rw [checkCompliance_ok _ _ hm2] at h
    injection h with h
    subst h
    have hv : complianceViolations { input with outputMode := .personal } required =
        offerViolation { input with outputMode := .personal } :=
      complianceViolations_offer_only _ required htrim hins houts htop hbot hfonts
    have ho : offerViolation { input with outputMode := .personal } = [] := by
      rw [offerViolation, if_neg]
      intro hcon
      exact OutputMode.noConfusion hcon.1
    refine ⟨?_, ?_, ?_⟩
    · simp [complianceResultFor, hv, ho]
    · simp only [complianceResultFor]
      rw [hv, ho]
    · rfl

/-- A document with no offer page marker: one content page of plain body
text. -/
def noOfferDoc : DocumentRepresentation :=
  { title := "t", front_matter := [],
    content_pages := [{ blocks := [{ block_type := .body_text, content := "hello" }] }] }

/-- Witness for offer_page_mode_sensitivity: a compliant geometry whose
offer page is absent, checked in both modes. -/
theorem offer_page_mode_sensitivity_witness :
    (∀ r, checkCompliance
        { smallCompliantInput with
          offerPagePresent := false
          outputMode := .publishReady } = .ok r →
        r.passes = false ∧
        r.violations = ["Offer page is not the final page (FR-94)."]) ∧
    (∀ r, checkCompliance
        { smallCompliantInput with
          offerPagePresent := false
          outputMode := .personal } = .ok r →
        r.passes = true ∧ r.violations = [] ∧ r.offer_page_present = true) :=
  offer_page_mode_sensitivity noOfferDoc
    { smallCompliantInput with offerPagePresent := false }
    ⟨0.375, 0.375, 0.375, 0.375⟩
    (by decide) (by decide) (by decide) (by decide) (by decide) (by decide)
    (by decide) (by decide) (by decide)

/-! ## Engine theorems -/

/-- C9: the engine is deterministic; laying out the same document with the
same mode (and the same embedded font metrics) twice yields identical
results, bytes included, whatever the ambient wall clock does between the
two runs — the engine never reads the clock and embeds no timestamp of its
own. -/
theorem generatePDF_deterministic :
    ∀ wallClock1 wallClock2 measure document outputMode,
      generatePDFAt wallClock1 measure document outputMode =
      generatePDFAt wallClock2 measure document outputMode := by
  intro _ _ _ _ _
  rfl

/-- C2: generatePDF always runs pass one at the smallest-bracket 0.375 inch
margins; when the margins recomputed from the pass one page count have an
inside margin within 0.001 of 0.375 the pass one layout is final, and
otherwise exactly one further full pass at the recomputed margins produces
the result — there is no third pass. -/
theorem two_pass_margin_protocol :
    ∀ measure document outputMode finalMargins bracket,
      calculateMargins (renderLayout measure document outputMode
        0.375 0.375 0.375 0.375).pageCount = .ok finalMargins →
      describeMarginBracket (renderLayout measure document outputMode
        0.375 0.375 0.375 0.375).pageCount = .ok bracket →
      (|finalMargins.inside - 0.375| < 0.001 →
        generatePDF measure document outputMode =
          (checkCompliance (complianceInputFor
              (renderLayout measure document outputMode 0.375 0.375 0.375 0.375)
              document outputMode)).map
            (fun c =>
              { pdfBytes := saveDoc
                  (renderLayout measure document outputMode 0.375 0.375 0.375 0.375),
                pageCount := (renderLayout measure document outputMode
                  0.375 0.375 0.375 0.375).pageCount,
                marginsBracket := bracket,
                complianceResult := c })) ∧
      (¬ |finalMargins.inside - 0.375| < 0.001 →
        generatePDF measure document outputMode =
          (checkCompliance (complianceInputFor
              (renderLayout measure document outputMode finalMargins.inside
                finalMargins.outside finalMargins.top finalMargins.bottom)
              document outputMode)).map
            (fun c =>
              { pdfBytes := saveDoc
                  (renderLayout measure document outputMode finalMargins.inside
                    finalMargins.outside finalMargins.top finalMargins.bottom),
                pageCount := (renderLayout measure document outputMode
                  finalMargins.inside finalMargins.outside finalMargins.top
                  finalMargins.bottom).pageCount,
                marginsBracket := bracket,
                complianceResult := c })) := by
  intro measure document outputMode finalMargins bracket hfm hbr
  constructor
  · intro hin
    simp only [generatePDF, hfm, hbr, if_pos hin]
    cases hc : checkCompliance (complianceInputFor
        (renderLayout measure document outputMode 0.375 0.375 0.375 0.375)
        document outputMode) <;>
      simp [Except.map, hc]
  · intro hin
    simp only [generatePDF, hfm, hbr, if_neg hin]
    cases hc : checkCompliance (complianceInputFor
        (renderLayout measure document outputMode finalMargins.inside
          finalMargins.outside finalMargins.top finalMargins.bottom)
        document outputMode) <;>
      simp [Except.map, hc]

/-- The constant-zero font metric oracle, used for the concrete engine
runs. -/
def measure0 : FontMeasure := fun _ _ _ => 0

/-- An empty document: one physical page, no content. -/
def emptyDoc : DocumentRepresentation :=
  { title := "t", front_matter := [], content_pages := [] }

/-- Witness for two_pass_margin_protocol: the empty document lands in the
smallest bracket, so pass one is final. -/
theorem two_pass_margin_protocol_witness :
    (|(KDPMargins.mk 0.375 0.375 0.375 0.375).inside - 0.375| < 0.001 →
      generatePDF measure0 emptyDoc OutputMode.personal =
        (checkCompliance (complianceInputFor
            (renderLayout measure0 emptyDoc OutputMode.personal 0.375 0.375 0.375 0.375)
            emptyDoc OutputMode.personal)).map
          (fun c =>
            { pdfBytes := saveDoc
                (renderLayout measure0 emptyDoc OutputMode.personal 0.375 0.375 0.375 0.375),
              pageCount := (renderLayout measure0 emptyDoc OutputMode.personal
                0.375 0.375 0.375 0.375).pageCount,
              marginsBracket := "24–150 pages: 0.375in gutter",
              complianceResult := c })) ∧
    (¬ |(KDPMargins.mk 0.375 0.375 0.375 0.375).inside - 0.375| < 0.001 →
      generatePDF measure0 emptyDoc OutputMode.personal =
        (checkCompliance (complianceInputFor
            (renderLayout measure0 emptyDoc OutputMode.personal 0.375 0.375 0.375 0.375)
            emptyDoc OutputMode.personal)).map
          (fun c =>
            { pdfBytes := saveDoc
                (renderLayout measure0 emptyDoc OutputMode.personal 0.375 0.375 0.375 0.375),
              pageCount := (renderLayout measure0 emptyDoc OutputMode.personal
                0.375 0.375 0.375 0.375).pageCount,
              marginsBracket := "24–150 pages: 0.375in gutter",
              complianceResult := c })) :=
  two_pass_margin_protocol measure0 emptyDoc OutputMode.personal
    ⟨0.375, 0.375, 0.375, 0.375⟩ "24–150 pages: 0.375in gutter"
    (by decide) (by decide)

/-- Body text of forty one-character lines: tall enough to fill one page
under the zero-width metric. -/
def overflowBlock : DocumentBlock :=
  { block_type := .body_text,
    content := String.intercalate "\n" (List.replicate 40 "a") }

/-- A single Arabic-numbered logical page whose three tall blocks overflow
into three physical pages. -/
def overflowDoc : DocumentRepresentation :=
  { title := "t", front_matter := [],
    content_pages := [{ blocks := [overflowBlock, overflowBlock, overflowBlock],
                        page_number_style := some .arabic }] }

set_option maxRecDepth 200000 in
/-- C1: an explicit page_break block closes the physical page and opens a
new one with the same style and no counter change, while an overflow before
a content block opens a new page with the same style and the active style
counter incremented by exactly one; consequently a single Arabic logical
page overflowing into three physical pages carries the counter values 1, 2,
3. -/
theorem page_break_vs_overflow_counters :
    (∀ cfg pageStyle st b, b.block_type = BlockType.page_break →
        (processBlock cfg pageStyle st b).currentStyle = pageStyle ∧
        (processBlock cfg pageStyle st b).romanCounter = st.romanCounter ∧
        (processBlock cfg pageStyle st b).arabicCounter = st.arabicCounter ∧
        (processBlock cfg pageStyle st b).pdfPageCount = st.pdfPageCount + 1) ∧
    (∀ cfg pageStyle st b, b.block_type ≠ BlockType.page_break →
        st.cursorY < cfg.contentFloorY →
        (processBlock cfg pageStyle st b).currentStyle = pageStyle ∧
        (processBlock cfg pageStyle st b).romanCounter =
          (if pageStyle = PageNumberStyle.roman then st.romanCounter + 1
           else st.romanCounter) ∧
        (processBlock cfg pageStyle st b).arabicCounter =
          (if pageStyle = PageNumberStyle.arabic then st.arabicCounter + 1
           else st.arabicCounter) ∧
        (processBlock cfg pageStyle st b).pdfPageCount = st.pdfPageCount + 1) ∧
    ((renderLayout measure0 overflowDoc OutputMode.personal
        0.375 0.375 0.375 0.375).pageCount = 3 ∧
      (renderLayout measure0 overflowDoc OutputMode.personal
        0.375 0.375 0.375 0.375).pages.map (fun pg => (pg.style, pg.numDisplay)) =
          [(.arabic, 1), (.arabic, 2), (.arabic, 3)]) := by
  refine ⟨?_, ?_, by decide, by decide⟩
  · intro cfg pageStyle st b hb
    simp [processBlock, hb, advancePage]
  · intro cfg pageStyle st b hb hov
    simp [processBlock, hb, hov, advancePage]

/-- Witness for page_break_vs_overflow_counters: a page break block and an
overflowing body block applied to the initial state of the default
geometry. -/
theorem page_break_vs_overflow_counters_witness :
    (let cfg := mkConfig measure0 0.375 0.375 0.375 0.375
     let st := initState cfg
     (processBlock cfg PageNumberStyle.arabic st
        { block_type := .page_break, content := "" }).arabicCounter =
        st.arabicCounter ∧
     (processBlock cfg PageNumberStyle.arabic st
        { block_type := .page_break, content := "" }).pdfPageCount =
        st.pdfPageCount + 1) ∧
    (let cfg := mkConfig measure0 0.375 0.375 0.375 0.375
     let st := { initState cfg with cursorY := 0 }
     (processBlock cfg PageNumberStyle.arabic st
        { block_type := .body_text, content := "a" }).arabicCounter =
        (if PageNumberStyle.arabic = PageNumberStyle.arabic then
          st.arabicCounter + 1 else st.arabicCounter) ∧
     (processBlock cfg PageNumberStyle.arabic st
        { block_type := .body_text, content := "a" }).pdfPageCount =
        st.pdfPageCount + 1) :=
  ⟨⟨(page_break_vs_overflow_counters.1 _ _ _ _ rfl).2.2.1,
    (page_break_vs_overflow_counters.1 _ _ _ _ rfl).2.2.2⟩,
   ⟨(page_break_vs_overflow_counters.2.1 _ _ _ _ (by decide) (by decide)).2.2.1,
    (page_break_vs_overflow_counters.2.1 _ _ _ _ (by decide) (by decide)).2.2.2⟩⟩

/-! ## Cursor floor invariant (C4) -/

/-- advancePage never touches the ghost trace. -/
theorem advancePage_renderLog (cfg : LayoutConfig) (st : EngineState)
    (style : PageNumberStyle) (inc : Bool) :
    (advancePage cfg st style inc).renderLog = st.renderLog := rfl

/-- Characterization of the trace growth of one block step: a page break
adds nothing; any other block is logged against the open page, at the top
of a fresh page when the overflow check fired and at the incoming cursor
otherwise. -/
theorem processBlock_renderLog (cfg : LayoutConfig) (pageStyle : PageNumberStyle)
    (st : EngineState) (b : DocumentBlock) :
    (processBlock cfg pageStyle st b).renderLog =
      if b.block_type = BlockType.page_break then st.renderLog
      else st.renderLog ++
        [{ block := b,
           pageIndex :=
             if st.cursorY < cfg.contentFloorY then st.pages.length + 1
             else st.pages.length,
           y := if st.cursorY < cfg.contentFloorY then cfg.contentTopY
                else st.cursorY }] := by
  by_cases hb : b.block_type = BlockType.page_break <;>
    by_cases hov : st.cursorY < cfg.contentFloorY <;>
      simp [processBlock, advancePage, hb, hov]

/-- One block step preserves the above-floor property of the trace when the
content area is non-degenerate. -/
theorem processBlock_floor (cfg : LayoutConfig) (pageStyle : PageNumberStyle)
    (st : EngineState) (b : DocumentBlock)
    (hft : cfg.contentFloorY ≤ cfg.contentTopY)
    (hinv : ∀ e ∈ st.renderLog, cfg.contentFloorY ≤ e.y) :
    ∀ e ∈ (processBlock cfg pageStyle st b).renderLog,
      cfg.contentFloorY ≤ e.y := by
  intro e he
  rw [processBlock_renderLog] at he
  by_cases hb : b.block_type = BlockType.page_break
  · rw [if_pos hb] at he
    exact hinv e he
  · rw [if_neg hb] at he
    rcases List.mem_append.mp he with hold | hnew
    · exact hinv e hold
    · rcases List.mem_singleton.mp hnew with rfl
      by_cases hov : st.cursorY < cfg.contentFloorY
      · simpa [hov] using hft
      · simpa [hov] using le_of_not_lt hov

/-- The block fold preserves the above-floor property of the trace. -/
theorem foldl_processBlock_floor (cfg : LayoutConfig)
    (pageStyle : PageNumberStyle) (bs : List DocumentBlock)
    (hft : cfg.contentFloorY ≤ cfg.contentTopY) :
    ∀ st, (∀ e ∈ st.renderLog, cfg.contentFloorY ≤ e.y) →
      ∀ e ∈ (bs.foldl (processBlock cfg pageStyle) st).renderLog,
        cfg.contentFloorY ≤ e.y := by
  induction bs with
  | nil => intro st hinv; exact hinv
  | cons b bs ih =>
      intro st hinv
      exact ih _ (processBlock_floor cfg pageStyle st b hft hinv)

/-- One logical page preserves the above-floor property of the trace. -/
theorem processDocPage_floor (cfg : LayoutConfig) (first : Bool)
    (st : EngineState) (docPage : DocumentPage)
    (hft : cfg.contentFloorY ≤ cfg.contentTopY)
    (hinv : ∀ e ∈ st.renderLog, cfg.contentFloorY ≤ e.y) :
    ∀ e ∈ (processDocPage cfg first st docPage).renderLog,
      cfg.contentFloorY ≤ e.y := by
  unfold processDocPage
  apply foldl_processBlock_floor _ _ _ hft
  by_cases hf : first <;> simp [hf, advancePage] <;> exact hinv

/-- The logical page fold preserves the above-floor property. -/
theorem foldl_processDocPage_floor (cfg : LayoutConfig)
    (ps : List DocumentPage)
    (hft : cfg.contentFloorY ≤ cfg.contentTopY) :
    ∀ st, (∀ e ∈ st.renderLog, cfg.contentFloorY ≤ e.y) →
      ∀ e ∈ (ps.foldl (processDocPage cfg false) st).renderLog,
        cfg.contentFloorY ≤ e.y := by
  induction ps with
  | nil => intro st hinv; exact hinv
  | cons p ps ih =>
      intro st hinv
      exact ih _ (processDocPage_floor cfg false st p hft hinv)

/-- C4: before drawing any content block whose cursor has fallen below the
content floor the engine finalizes the page and opens a new one, so in any
layout pass whose content floor lies below the content top no block
rendering ever starts below the floor. -/
theorem content_blocks_start_above_floor :
    (∀ cfg pageStyle st b, b.block_type ≠ BlockType.page_break →
        st.cursorY < cfg.contentFloorY →
        (processBlock cfg pageStyle st b).pages.length = st.pages.length + 1 ∧
        (processBlock cfg pageStyle st b).pdfPageCount = st.pdfPageCount + 1) ∧
    (∀ measure document outputMode insideIn outsideIn topIn bottomIn,
        contentFloorYOf (bottomIn * 72) ≤ contentTopYOf (topIn * 72) →
        ∀ e ∈ (renderLayout measure document outputMode
            insideIn outsideIn topIn bottomIn).renderLog,
          contentFloorYOf (bottomIn * 72) ≤ e.y) := by
  constructor
  · intro cfg pageStyle st b hb hov
    simp [processBlock, hb, hov, advancePage]
  · intro measure document outputMode insideIn outsideIn topIn bottomIn hft e he
    have hft2 : (mkConfig measure insideIn outsideIn topIn bottomIn).contentFloorY ≤
        (mkConfig measure insideIn outsideIn topIn bottomIn).contentTopY := hft
    show (mkConfig measure insideIn outsideIn topIn bottomIn).contentFloorY ≤ e.y
    revert e he
    unfold renderLayout
    cases hall : document.front_matter ++ document.content_pages with
    | nil => simp [initState]
    | cons p rest =>
        simp only
        apply foldl_processDocPage_floor _ _ hft2
        apply processDocPage_floor _ _ _ _ hft2
        simp [initState]

/-- Witness for content_blocks_start_above_floor: the forced page break of
an overflowing state, and the overflow run at the default geometry, whose
trace stays above the 57pt floor. -/
theorem content_blocks_start_above_floor_witness :
    ((processBlock (mkConfig measure0 0.375 0.375 0.375 0.375)
        PageNumberStyle.arabic
        { initState (mkConfig measure0 0.375 0.375 0.375 0.375) with cursorY := 0 }
        { block_type := .body_text, content := "a" }).pages.length =
      ({ initState (mkConfig measure0 0.375 0.375 0.375 0.375) with
          cursorY := 0 } : EngineState).pages.length + 1) ∧
    (∀ e ∈ (renderLayout measure0 overflowDoc OutputMode.personal
        0.375 0.375 0.375 0.375).renderLog,
      contentFloorYOf ((0.375 : ℚ) * 72) ≤ e.y) :=
  ⟨(content_blocks_start_above_floor.1 _ _ _ _ (by decide) (by decide)).1,
   content_blocks_start_above_floor.2 measure0 overflowDoc OutputMode.personal
     0.375 0.375 0.375 0.375 (by decide)⟩

/-! ## Footnote placement invariant (C3) -/

/-- All blocks of the document in engine order. -/
def docBlocks (document : DocumentRepresentation) : List DocumentBlock :=
  ((document.front_matter ++ document.content_pages).map DocumentPage.blocks).flatten

/-- Only the footnote renderer contributes to the pending accumulator, and
it contributes exactly its block. -/
theorem renderBlock_newFootnotes (measure : FontMeasure) (b : DocumentBlock)
    (ctx : RenderCtx) :
    (renderBlock measure b ctx).newFootnotes =
      if b.block_type = BlockType.footnote then [b] else [] := by
  cases hb : b.block_type <;>
    simp [renderBlock, hb, renderHeading, renderBodyText, renderBlockQuote,
      renderFootnote, renderPromptList, renderActionList, renderDivider,
      renderPageBreak, renderTitle, renderSubtitle, renderImprint, renderTocEntry]

/-- Page growth of one block step. -/
theorem processBlock_pages (cfg : LayoutConfig) (pageStyle : PageNumberStyle)
    (st : EngineState) (b : DocumentBlock) :
    (processBlock cfg pageStyle st b).pages =
      if b.block_type = BlockType.page_break then st.pages ++ [finalizePage cfg st]
      else if st.cursorY < cfg.contentFloorY then st.pages ++ [finalizePage cfg st]
      else st.pages := by
  by_cases hb : b.block_type = BlockType.page_break <;>
    by_cases hov : st.cursorY < cfg.contentFloorY <;>
      simp [processBlock, advancePage, hb, hov]

/-- Pending footnote growth of one block step. -/
theorem processBlock_pendingFootnotes (cfg : LayoutConfig)
    (pageStyle : PageNumberStyle) (st : EngineState) (b : DocumentBlock) :
    (processBlock cfg pageStyle st b).pendingFootnotes =
      if b.block_type = BlockType.page_break then []
      else (if st.cursorY < cfg.contentFloorY then [] else st.pendingFootnotes) ++
        (if b.block_type = BlockType.footnote then [b] else []) := by
  by_cases hb : b.block_type = BlockType.page_break <;>
    by_cases hov : st.cursorY < cfg.contentFloorY <;>
      simp [processBlock, advancePage, hb, hov, renderBlock_newFootnotes]

/-- The running invariant of the footnote queue: every logged footnote is
either recorded on the finalized page it was logged against, or still
pending against the open page; the finalized pages plus the pending queue
partition all logged footnotes; and every finalized page was assembled by
finalizePage (content ops, then its footnotes in the bottom region, then
its page number). -/
structure FootInv (cfg : LayoutConfig) (st : EngineState) : Prop where
  idx_le : ∀ e ∈ st.renderLog, e.pageIndex ≤ st.pages.length
  closed : ∀ e ∈ st.renderLog, e.block.block_type = BlockType.footnote →
      e.pageIndex < st.pages.length →
      ∃ pg, st.pages.get? e.pageIndex = some pg ∧ e.block ∈ pg.footnotes
  open_pending : ∀ e ∈ st.renderLog, e.block.block_type = BlockType.footnote →
      e.pageIndex = st.pages.length → e.block ∈ st.pendingFootnotes
  partition : (st.pages.map PhysPage.footnotes).flatten ++ st.pendingFootnotes =
      (st.renderLog.map RenderEvent.block).filter
        (fun b => decide (b.block_type = BlockType.footnote))
  wf : ∀ pg ∈ st.pages, pg.allOps = pg.contentOps ++
      renderPageFootnotes cfg.measure pg.footnotes cfg.contentX cfg.contentWidth
        (cfg.bottomPt + PAGE_NUMBER_HEIGHT_PT + 4) ++
      drawPageNumber cfg.measure pg.style pg.numDisplay cfg.contentX
        cfg.contentWidth (cfg.bottomPt / 2)

/-- The initial engine state satisfies the invariant. -/
theorem footinv_init (cfg : LayoutConfig) : FootInv cfg (initState cfg) := by
  constructor <;> simp [initState]

/-- Closing the open physical page preserves the invariant: the pending
queue is flushed onto the page being finalized, stated for any state whose
pages, pending queue and trace have the closed shape. -/
theorem footinv_close (cfg : LayoutConfig) (st st' : EngineState)
    (h : FootInv cfg st)
    (hpages : st'.pages = st.pages ++ [finalizePage cfg st])
    (hpend : st'.pendingFootnotes = [])
    (hlog : st'.renderLog = st.renderLog) :
    FootInv cfg st' := by
  constructor
  · intro e he
    rw [hlog] at he
    rw [hpages, List.length_append]
    have := h.idx_le e he
    simp only [List.length_singleton]
    omega
  · intro e he hft hlt
    rw [hlog] at he
    rw [hpages] at hlt ⊢
    rcases Nat.lt_or_ge e.pageIndex st.pages.length with hlt2 | hge
    · obtain ⟨pg, hg, hm⟩ := h.closed e he hft hlt2
      exact ⟨pg, by rw [List.get?_append hlt2]; exact hg, hm⟩
    · have hidx : e.pageIndex = st.pages.length := le_antisymm (h.idx_le e he) hge
      refine ⟨finalizePage cfg st, ?_, h.open_pending e he hft hidx⟩
      rw [hidx, List.get?_concat_length]
  · intro e he hft heq
    rw [hlog] at he
    rw [hpages, List.length_append] at heq
    have := h.idx_le e he
    simp only [List.length_singleton] at heq
    omega
  · rw [hpages, hpend, hlog, List.map_append, List.flatten_append, List.append_nil]
    have : (([finalizePage cfg st].map PhysPage.footnotes)).flatten =
        st.pendingFootnotes := by simp [finalizePage]
    rw [this]
    exact h.partition
  · intro pg hpg
    rw [hpages] at hpg
    rcases List.mem_append.mp hpg with hold | hnew
    · exact h.wf pg hold
    · rcases List.mem_singleton.mp hnew with rfl
      rfl

/-- advancePage preserves the invariant. -/
theorem footinv_advancePage (cfg : LayoutConfig) (st : EngineState)
    (style : PageNumberStyle) (inc : Bool) (h : FootInv cfg st) :
    FootInv cfg (advancePage cfg st style inc) :=
  footinv_close cfg st _ h rfl rfl rfl

/-- Logging one non page-break block against the open page preserves the
invariant: the block joins the pending queue exactly when it is a
footnote. -/
theorem footinv_log_append (cfg : LayoutConfig) (st st' : EngineState)
    (b : DocumentBlock) (y : ℚ) (h : FootInv cfg st)
    (hpages : st'.pages = st.pages)
    (hpend : st'.pendingFootnotes = st.pendingFootnotes ++
      (if b.block_type = BlockType.footnote then [b] else []))
    (hlog : st'.renderLog = st.renderLog ++
      [{ block := b, pageIndex := st.pages.length, y := y }]) :
    FootInv cfg st' := by
  constructor
  · intro e he
    rw [hlog] at he
    rw [hpages]
    rcases List.mem_append.mp he with hold | hnew
    · exact h.idx_le e hold
    · rcases List.mem_singleton.mp hnew with rfl
      exact le_refl _
  · intro e he hft hlt
    rw [hlog] at he
    rw [hpages] at hlt ⊢
    rcases List.mem_append.mp he with hold | hnew
    · exact h.closed e hold hft hlt
    · rcases List.mem_singleton.mp hnew with rfl
      exact absurd hlt (lt_irrefl _)
  · intro e he hft heq
    rw [hlog] at he
    rw [hpend]
    rcases List.mem_append.mp he with hold | hnew
    · rw [hpages] at heq
      exact List.mem_append_left _ (h.open_pending e hold hft heq)
    · rcases List.mem_singleton.mp hnew with rfl
      have hft2 : b.block_type = BlockType.footnote := hft
      rw [if_pos hft2]
      exact List.mem_append_right _ (List.mem_singleton.mpr rfl)
  · rw [hpages, hpend, hlog, List.map_append, List.filter_append,
      ← List.append_assoc, h.partition]
    congr 1
    by_cases hf : b.block_type = BlockType.footnote <;> simp [hf]
  · intro pg hpg
    rw [hpages] at hpg
    exact h.wf pg hpg

/-- One block step preserves the invariant. -/
theorem footinv_processBlock (cfg : LayoutConfig) (pageStyle : PageNumberStyle)
    (st : EngineState) (b : DocumentBlock) (h : FootInv cfg st) :
    FootInv cfg (processBlock cfg pageStyle st b) := by
  have hpg := processBlock_pages cfg pageStyle st b
  have hpend := processBlock_pendingFootnotes cfg pageStyle st b
  have hlog := processBlock_renderLog cfg pageStyle st b
  by_cases hb : b.block_type = BlockType.page_break
  · rw [if_pos hb] at hpg hpend hlog
    exact footinv_close cfg st _ h hpg hpend hlog
  · rw [if_neg hb] at hpg hpend hlog
    by_cases hov : st.cursorY < cfg.contentFloorY
    · simp only [if_pos hov] at hpg hpend hlog
      refine footinv_log_append cfg
        { st with
          pages := st.pages ++ [finalizePage cfg st]
          pendingFootnotes := [] } _ b cfg.contentTopY
        (footinv_close cfg st _ h rfl rfl rfl) ?_ ?_ ?_
      · rw [hpg]
      · rw [hpend]
      · rw [hlog]
        simp [List.length_append]
    · simp only [if_neg hov] at hpg hpend hlog
      exact footinv_log_append cfg st _ b st.cursorY h hpg hpend hlog

/-- The block fold preserves the invariant. -/
theorem footinv_foldBlocks (cfg : LayoutConfig) (pageStyle : PageNumberStyle)
    (bs : List DocumentBlock) :
    ∀ st, FootInv cfg st →
      FootInv cfg (bs.foldl (processBlock cfg pageStyle) st) := by
  induction bs with
  | nil => intro st h; exact h
  | cons b bs ih =>
      intro st h
      exact ih _ (footinv_processBlock cfg pageStyle st b h)

/-- One logical page preserves the invariant. -/
theorem footinv_processDocPage (cfg : LayoutConfig) (first : Bool)
    (st : EngineState) (docPage : DocumentPage) (h : FootInv cfg st) :
    FootInv cfg (processDocPage cfg first st docPage) := by
  unfold processDocPage
  apply footinv_foldBlocks
  by_cases hf : first
  · simp only [hf, if_pos]
    exact ⟨h.idx_le, h.closed, h.open_pending, h.partition, h.wf⟩
  · simp only [hf, if_neg, Bool.false_eq_true, not_false_iff]
    have ha := footinv_advancePage cfg st
      (docPage.page_number_style.getD PageNumberStyle.arabic) true h
    exact ⟨ha.idx_le, ha.closed, ha.open_pending, ha.partition, ha.wf⟩

/-- The logical page fold preserves the invariant. -/
theorem footinv_foldPages (cfg : LayoutConfig) (ps : List DocumentPage) :
    ∀ st, FootInv cfg st →
      FootInv cfg (ps.foldl (processDocPage cfg false) st) := by
  induction ps with
  | nil => intro st h; exact h
  | cons p ps ih =>
      intro st h
      exact ih _ (footinv_processDocPage cfg false st p h)

/-- Blocks logged by one step: every block except a page break, in order. -/
theorem processBlock_logBlocks (cfg : LayoutConfig) (pageStyle : PageNumberStyle)
    (st : EngineState) (b : DocumentBlock) :
    (processBlock cfg pageStyle st b).renderLog.map RenderEvent.block =
      st.renderLog.map RenderEvent.block ++
        (if b.block_type = BlockType.page_break then [] else [b]) := by
  rw [processBlock_renderLog]
  by_cases hb : b.block_type = BlockType.page_break <;> simp [hb]

/-- Blocks logged by the block fold. -/
theorem foldBlocks_logBlocks (cfg : LayoutConfig) (pageStyle : PageNumberStyle)
    (bs : List DocumentBlock) :
    ∀ st, (bs.foldl (processBlock cfg pageStyle) st).renderLog.map RenderEvent.block =
      st.renderLog.map RenderEvent.block ++
        bs.filter (fun b => decide (b.block_type ≠ BlockType.page_break)) := by
  induction bs with
  | nil => intro st; simp
  | cons b bs ih =>
      intro st
      rw [List.foldl_cons, ih, processBlock_logBlocks]
      by_cases hb : b.block_type = BlockType.page_break <;>
        simp [hb, List.filter_cons]

/-- Blocks logged by one logical page. -/
theorem processDocPage_logBlocks (cfg : LayoutConfig) (first : Bool)
    (st : EngineState) (docPage : DocumentPage) :
    (processDocPage cfg first st docPage).renderLog.map RenderEvent.block =
      st.renderLog.map RenderEvent.block ++
        docPage.blocks.filter (fun b => decide (b.block_type ≠ BlockType.page_break)) := by
  unfold processDocPage
  rw [foldBlocks_logBlocks]
  by_cases hf : first <;> simp [hf, advancePage]

/-- Blocks logged by the logical page fold. -/
theorem foldPages_logBlocks (cfg : LayoutConfig) (ps : List DocumentPage) :
    ∀ st, (ps.foldl (processDocPage cfg false) st).renderLog.map RenderEvent.block =
      st.renderLog.map RenderEvent.block ++
        (ps.map (fun dp => dp.blocks.filter
          (fun b => decide (b.block_type ≠ BlockType.page_break)))).flatten := by
  induction ps with
  | nil => intro st; simp
  | cons p ps ih =>
      intro st
      rw [List.foldl_cons, ih, processDocPage_logBlocks]
      simp [List.append_assoc]

/-- Filtering a flattened list componentwise. -/
theorem filter_flatten_blocks (p : DocumentBlock → Bool)
    (L : List (List DocumentBlock)) :
    L.flatten.filter p = (L.map (fun l => l.filter p)).flatten := by
  induction L with
  | nil => rfl
  | cons l L ih => simp [List.filter_append, ih]

/-- Keeping footnotes among the non page-break blocks is keeping the
footnotes. -/
theorem filter_foot_of_filter_nonbreak (l : List DocumentBlock) :
    (l.filter (fun b => decide (b.block_type ≠ BlockType.page_break))).filter
        (fun b => decide (b.block_type = BlockType.footnote)) =
      l.filter (fun b => decide (b.block_type = BlockType.footnote)) := by
  rw [List.filter_filter]
  apply List.filter_congr
  intro b _
  by_cases hf : b.block_type = BlockType.footnote
  · have hnb : b.block_type ≠ BlockType.page_break := by
      rw [hf]; intro hc; cases hc
    simp [hf, hnb]
  · simp [hf]

/-- The finished layout is a finalization of a state satisfying the
invariant whose trace holds exactly the non page-break blocks of the
document, in order. -/
theorem renderLayout_state (measure : FontMeasure)
    (document : DocumentRepresentation) (outputMode : OutputMode)
    (insideIn outsideIn topIn bottomIn : ℚ) :
    ∃ st : EngineState,
      FootInv (mkConfig measure insideIn outsideIn topIn bottomIn) st ∧
      (renderLayout measure document outputMode insideIn outsideIn topIn
        bottomIn).pages =
        st.pages ++ [finalizePage (mkConfig measure insideIn outsideIn topIn
          bottomIn) st] ∧
      (renderLayout measure document outputMode insideIn outsideIn topIn
        bottomIn).renderLog = st.renderLog ∧
      st.renderLog.map RenderEvent.block =
        ((document.front_matter ++ document.content_pages).map
          (fun dp => dp.blocks.filter
            (fun b => decide (b.block_type ≠ BlockType.page_break)))).flatten := by
  unfold renderLayout
  cases hall : document.front_matter ++ document.content_pages with
  | nil =>
      refine ⟨initState (mkConfig measure insideIn outsideIn topIn bottomIn),
        footinv_init _, rfl, rfl, ?_⟩
      simp [initState]
  | cons p rest =>
      refine ⟨rest.foldl (processDocPage (mkConfig measure insideIn outsideIn
          topIn bottomIn) false)
        (processDocPage (mkConfig measure insideIn outsideIn topIn bottomIn)
          true (initState (mkConfig measure insideIn outsideIn topIn bottomIn)) p),
        ?_, rfl, rfl, ?_⟩
      · exact footinv_foldPages _ rest _
          (footinv_processDocPage _ true _ p (footinv_init _))
      · rw [foldPages_logBlocks, processDocPage_logBlocks]
        simp [initState]

/-- C3: the footnote renderer draws nothing and leaves the cursor in place,
only queueing its block; every queued footnote is flushed onto the very
physical page whose block loop collected it; the pages of a finished layout
carry exactly the footnote blocks of the document, each once; and every
finalized page consists of its content ops followed by its footnotes in the
page bottom region followed by its page number. -/
theorem footnotes_same_physical_page :
    (∀ measure b ctx, b.block_type = BlockType.footnote →
        renderBlock measure b ctx =
          { cursorX := ctx.cursorX, cursorY := ctx.cursorY, ops := [],
            newFootnotes := [b] }) ∧
    (∀ measure document outputMode insideIn outsideIn topIn bottomIn,
      (∀ e ∈ (renderLayout measure document outputMode insideIn outsideIn
          topIn bottomIn).renderLog,
        e.block.block_type = BlockType.footnote →
        ∃ pg, (renderLayout measure document outputMode insideIn outsideIn
            topIn bottomIn).pages.get? e.pageIndex = some pg ∧
          e.block ∈ pg.footnotes) ∧
      ((renderLayout measure document outputMode insideIn outsideIn topIn
          bottomIn).pages.map PhysPage.footnotes).flatten =
        (docBlocks document).filter
          (fun b => decide (b.block_type = BlockType.footnote)) ∧
      (∀ pg ∈ (renderLayout measure document outputMode insideIn outsideIn
          topIn bottomIn).pages,
        pg.allOps = pg.contentOps ++
          renderPageFootnotes measure pg.footnotes (insideIn * 72)
            (TRIM_WIDTH_PT - insideIn * 72 - outsideIn * 72)
            (bottomIn * 72 + PAGE_NUMBER_HEIGHT_PT + 4) ++
          drawPageNumber measure pg.style pg.numDisplay (insideIn * 72)
            (TRIM_WIDTH_PT - insideIn * 72 - outsideIn * 72)
            (bottomIn * 72 / 2))) := by
  refine ⟨?_, ?_⟩
  · intro measure b ctx hb
    simp [renderBlock, hb, renderFootnote]
  · intro measure document outputMode insideIn outsideIn topIn bottomIn
    obtain ⟨st, hinv, hpages, hlog, hblocks⟩ :=
      renderLayout_state measure document outputMode insideIn outsideIn topIn bottomIn
    refine ⟨?_, ?_, ?_⟩
    · intro e he hft
      rw [hlog] at he
      rw [hpages]
      rcases Nat.lt_or_ge e.pageIndex st.pages.length with hlt | hge
      · obtain ⟨pg, hg, hm⟩ := hinv.closed e he hft hlt
        exact ⟨pg, by rw [List.get?_append hlt]; exact hg, hm⟩
      · have hidx : e.pageIndex = st.pages.length :=
          le_antisymm (hinv.idx_le e he) hge
        refine ⟨finalizePage (mkConfig measure insideIn outsideIn topIn bottomIn)
          st, ?_, hinv.open_pending e he hft hidx⟩
        rw [hidx, List.get?_concat_length]
    · rw [hpages, List.map_append, List.flatten_append]
      have h1 : (List.map PhysPage.footnotes
          [finalizePage (mkConfig measure insideIn outsideIn topIn bottomIn) st]).flatten =
          st.pendingFootnotes := by simp [finalizePage]
      rw [h1, hinv.partition, hblocks]
      rw [filter_flatten_blocks, List.map_map]
      have h2 : ∀ dps : List DocumentPage,
          (dps.map ((fun l => l.filter (fun b => decide (b.block_type = BlockType.footnote))) ∘
            (fun dp => dp.blocks.filter (fun b => decide (b.block_type ≠ BlockType.page_break))))) =
          dps.map (fun dp => dp.blocks.filter
            (fun b => decide (b.block_type = BlockType.footnote))) := by
        intro dps
        apply List.map_congr_left
        intro dp _
        exact filter_foot_of_filter_nonbreak dp.blocks
      rw [h2, docBlocks, filter_flatten_blocks, List.map_map]
      rfl
    · intro pg hpg
      rw [hpages] at hpg
      rcases List.mem_append.mp hpg with hold | hnew
      · exact hinv.wf pg hold
      · rcases List.mem_singleton.mp hnew with rfl
        rfl

/-- A logical page with a footnote between two body blocks. -/
def footDoc : DocumentRepresentation :=
  { title := "t", front_matter := [],
    content_pages := [{ blocks :=
      [{ block_type := .body_text, content := "x" },
       { block_type := .footnote, content := "note" },
       { block_type := .body_text, content := "y" }] }] }

set_option maxRecDepth 100000 in
/-- Witness for footnotes_same_physical_page: the footnote of footDoc is
queued without drawing and lands on the first (and only) physical page. -/
theorem footnotes_same_physical_page_witness :
    (renderBlock measure0 { block_type := .footnote, content := "note" }
        { cursorX := 27, cursorY := 621, contentWidth := 378, contentX := 27 } =
      { cursorX := 27, cursorY := 621, ops := [],
        newFootnotes := [{ block_type := .footnote, content := "note" }] }) ∧
    (∃ pg, (renderLayout measure0 footDoc OutputMode.personal
        0.375 0.375 0.375 0.375).pages.get?
        ({ block := { block_type := .footnote, content := "note" },
           pageIndex := 0, y := 597.6 } : RenderEvent).pageIndex = some pg ∧
      ({ block := { block_type := .footnote, content := "note" },
         pageIndex := 0, y := 597.6 } : RenderEvent).block ∈ pg.footnotes) ∧
    ((renderLayout measure0 footDoc OutputMode.personal
        0.375 0.375 0.375 0.375).pages.map PhysPage.footnotes).flatten =
      (docBlocks footDoc).filter
        (fun b => decide (b.block_type = BlockType.footnote)) :=
  ⟨footnotes_same_physical_page.1 measure0
      { block_type := .footnote, content := "note" }
      { cursorX := 27, cursorY := 621, contentWidth := 378, contentX := 27 } rfl,
   (footnotes_same_physical_page.2 measure0 footDoc OutputMode.personal
      0.375 0.375 0.375 0.375).1
      { block := { block_type := .footnote, content := "note" },
        pageIndex := 0, y := 597.6 } (by decide) rfl,
   (footnotes_same_physical_page.2 measure0 footDoc OutputMode.personal
      0.375 0.375 0.375 0.375).2.1⟩

/-! ## The starts_new_page flag is never read (C10) -/

/-- Agreement of two logical pages on everything the engine reads: the
blocks and the numbering style, but not the starts_new_page flag. -/
def pageLayoutEq (p q : DocumentPage) : Prop :=
  p.blocks = q.blocks ∧ p.page_number_style = q.page_number_style

/-- The per-page step reads only the blocks and the numbering style. -/
theorem processDocPage_ext (cfg : LayoutConfig) (first : Bool)
    (st : EngineState) (p q : DocumentPage) (h : pageLayoutEq p q) :
    processDocPage cfg first st p = processDocPage cfg first st q := by
  unfold processDocPage
  rw [h.1, h.2]

/-- The logical page fold is invariant under flag-only differences. -/
theorem foldPages_ext (cfg : LayoutConfig) :
    ∀ (l1 l2 : List DocumentPage), List.Forall₂ pageLayoutEq l1 l2 →
      ∀ st, l1.foldl (processDocPage cfg false) st =
        l2.foldl (processDocPage cfg false) st := by
  intro l1 l2 h
  induction h with
  | nil => intro st; rfl
  | cons hpq htl ih =>
      intro st
      rw [List.foldl_cons, List.foldl_cons,
        processDocPage_ext cfg false st _ _ hpq]
      exact ih _

/-- pdfPageCount never decreases over a block step. -/
theorem processBlock_pageCount (cfg : LayoutConfig) (pageStyle : PageNumberStyle)
    (st : EngineState) (b : DocumentBlock) :
    st.pdfPageCount ≤ (processBlock cfg pageStyle st b).pdfPageCount := by
  by_cases hb : b.block_type = BlockType.page_break <;>
    by_cases hov : st.cursorY < cfg.contentFloorY <;>
      simp [processBlock, advancePage, hb, hov]

/-- pdfPageCount never decreases over the block fold. -/
theorem foldBlocks_pageCount (cfg : LayoutConfig)
    (pageStyle : PageNumberStyle) (bs : List DocumentBlock) :
    ∀ st, st.pdfPageCount ≤
      (bs.foldl (processBlock cfg pageStyle) st).pdfPageCount := by
  induction bs with
  | nil => intro st; exact le_refl _
  | cons b bs ih =>
      intro st
      exact le_trans (processBlock_pageCount cfg pageStyle st b) (ih _)

/-- Every logical page after the first opens at least one physical page. -/
theorem processDocPage_pageCount (cfg : LayoutConfig) (st : EngineState)
    (docPage : DocumentPage) :
    st.pdfPageCount + 1 ≤ (processDocPage cfg false st docPage).pdfPageCount := by
  have h := foldBlocks_pageCount cfg
    (docPage.page_number_style.getD PageNumberStyle.arabic) docPage.blocks
    { advancePage cfg st (docPage.page_number_style.getD PageNumberStyle.arabic)
        true with
      cursorX := cfg.contentX, cursorY := cfg.contentTopY }
  exact le_trans (Nat.le_of_eq rfl) h

/-- The first logical page never loses the initial physical page. -/
theorem processDocPage_first_pageCount (cfg : LayoutConfig) (st : EngineState)
    (docPage : DocumentPage) :
    st.pdfPageCount ≤ (processDocPage cfg true st docPage).pdfPageCount := by
  have h := foldBlocks_pageCount cfg
    (docPage.page_number_style.getD PageNumberStyle.arabic) docPage.blocks
    { { st with
        currentStyle := docPage.page_number_style.getD PageNumberStyle.arabic
        romanCounter :=
          if docPage.page_number_style.getD PageNumberStyle.arabic =
            PageNumberStyle.roman then 1 else st.romanCounter
        arabicCounter :=
          if docPage.page_number_style.getD PageNumberStyle.arabic =
            PageNumberStyle.arabic then 1 else st.arabicCounter } with
      cursorX := cfg.contentX, cursorY := cfg.contentTopY }
  exact le_trans (Nat.le_of_eq rfl) h

/-- The page fold opens at least one physical page per logical page. -/
theorem foldPages_pageCount (cfg : LayoutConfig) (ps : List DocumentPage) :
    ∀ st, st.pdfPageCount + ps.length ≤
      (ps.foldl (processDocPage cfg false) st).pdfPageCount := by
  induction ps with
  | nil => intro st; simp
  | cons p ps ih =>
      intro st
      rw [List.foldl_cons]
      refine le_trans ?_ (ih _)
      have := processDocPage_pageCount cfg st p
      simp only [List.length_cons]
      omega

/-- C10: the engine never reads the starts_new_page flag — two documents
that agree on blocks and numbering styles but differ arbitrarily in their
flags lay out identically — and every logical page after the first opens a
new physical page regardless of the flag, so the physical page count is at
least the logical page count. -/
theorem starts_new_page_flag_ignored :
    ∀ measure d1 d2 outputMode insideIn outsideIn topIn bottomIn,
      List.Forall₂ pageLayoutEq d1.front_matter d2.front_matter →
      List.Forall₂ pageLayoutEq d1.content_pages d2.content_pages →
      renderLayout measure d1 outputMode insideIn outsideIn topIn bottomIn =
        renderLayout measure d2 outputMode insideIn outsideIn topIn bottomIn ∧
      d1.front_matter.length + d1.content_pages.length ≤
        (renderLayout measure d1 outputMode insideIn outsideIn topIn
          bottomIn).pageCount := by
  intro measure d1 d2 outputMode insideIn outsideIn topIn bottomIn hf hc
  constructor
  · unfold renderLayout
    have hall : List.Forall₂ pageLayoutEq
        (d1.front_matter ++ d1.content_pages)
        (d2.front_matter ++ d2.content_pages) := List.rel_append hf hc
    revert hall
    generalize d1.front_matter ++ d1.content_pages = all1
    generalize d2.front_matter ++ d2.content_pages = all2
    intro hall
    cases hall with
    | nil => rfl
    | cons hpq htl =>
        simp only
        rw [processDocPage_ext _ true _ _ _ hpq, foldPages_ext _ _ _ htl]
  · unfold renderLayout
    have hlen : (d1.front_matter ++ d1.content_pages).length =
        d1.front_matter.length + d1.content_pages.length :=
      List.length_append _ _
    rw [← hlen]
    generalize d1.front_matter ++ d1.content_pages = all1
    cases all1 with
    | nil => simp [initState]
    | cons p rest =>
        simp only [List.length_cons]
        have h1 := processDocPage_first_pageCount
          (mkConfig measure insideIn outsideIn topIn bottomIn)
          (initState (mkConfig measure insideIn outsideIn topIn bottomIn)) p
        have h2 := foldPages_pageCount
          (mkConfig measure insideIn outsideIn topIn bottomIn) rest
          (processDocPage (mkConfig measure insideIn outsideIn topIn bottomIn)
            true (initState (mkConfig measure insideIn outsideIn topIn
              bottomIn)) p)
        have h3 : (initState (mkConfig measure insideIn outsideIn topIn
          bottomIn)).pdfPageCount = 1 := rfl
        omega

/-- Two single-page documents equal except for the starts_new_page flag. -/
def flagDocA : DocumentRepresentation :=
  { title := "t", front_matter := [],
    content_pages := [{ blocks := [{ block_type := .body_text, content := "x" }],
                        starts_new_page := some true }] }

/-- The same document with the flag flipped. -/
def flagDocB : DocumentRepresentation :=
  { title := "t", front_matter := [],
    content_pages := [{ blocks := [{ block_type := .body_text, content := "x" }],
                        starts_new_page := some false }] }

/-- Witness for starts_new_page_flag_ignored at the concrete flag-flipped
pair. -/
theorem starts_new_page_flag_ignored_witness :
    renderLayout measure0 flagDocA OutputMode.personal 0.375 0.375 0.375 0.375 =
      renderLayout measure0 flagDocB OutputMode.personal 0.375 0.375 0.375 0.375 ∧
    flagDocA.front_matter.length + flagDocA.content_pages.length ≤
      (renderLayout measure0 flagDocA OutputMode.personal
        0.375 0.375 0.375 0.375).pageCount :=
  starts_new_page_flag_ignored measure0 flagDocA flagDocB OutputMode.personal
    0.375 0.375 0.375 0.375
    (List.Forall₂.nil)
    (List.Forall₂.cons ⟨rfl, rfl⟩ List.Forall₂.nil)

end DevotionalPDF
